import Mathlib

/-!
Verification of the AkarisBackend farm-management service.

The development shallowly embeds the persistence schema (src/models/model.py)
and the route handlers relevant to the consistency, authorization and
error-handling claims (src/routes/*.py) as pure Lean functions over an
explicit relational state.  Datetimes are modelled as natural numbers
(seconds since an epoch); a calendar day is the quotient by 86400.  The SQL
session is modelled by threading the whole database value; a route returns
Except so that an error means the transaction rolled back.  Routes whose
source commits more than once (login, farm soft-delete) additionally expose
the durable state at each commit point through an explicit failure flag.
External collaborators (bcrypt, the JWT library, dateutil) are modelled as
parameters or by small structural stand-ins, as the spec classifies them as
excluded collaborators.
-/

namespace Akaris

/-! ## Enumerations (src/models/model.py) -/

inductive UserStatus | active | inactive | deleted
deriving DecidableEq, Repr

inductive FarmStatusEnum | active | inactive | terminated
deriving DecidableEq, Repr

inductive FarmExpectationEnum | active | deleted | updated
deriving DecidableEq, Repr

inductive CropStatusEnum | active | inactive | terminated
deriving DecidableEq, Repr

inductive CropGrowingStageEnum | sproting | growing | flowering | fruiting | harvest | post_harvest
deriving DecidableEq, Repr

inductive DailyCropStatusEnum | active | deleted | updated
deriving DecidableEq, Repr

inductive MethodStatusEnum | active | inactive | deleted
deriving DecidableEq, Repr

inductive RecordStatusEnum | active | deleted
deriving DecidableEq, Repr

inductive HarvestUnitEnum | kg | unit
deriving DecidableEq, Repr

inductive HarvestQualityEnum | excellent | good | fair | poor
deriving DecidableEq, Repr

/-! ## Time model

A DateTime is a number of seconds; `dateOf` is the calendar day, and
`midnightOf` the timestamp a Date is promoted to when PostgreSQL compares a
timestamp column with a date value (the date is cast to the timestamp at
00:00 of that day). -/

def secsPerDay : Nat := 86400

def dateOf (t : Nat) : Nat := t / secsPerDay

def midnightOf (d : Nat) : Nat := d * secsPerDay

/-! ## Rows (src/models/model.py) -/

structure User where
  user_id : Nat
  first_name : String
  last_name : String
  email : String
  /-- stores the hashed password -/
  password : String
  phone_number : String
  registered_date : Nat
  last_login_date : Option Nat
  user_status : UserStatus
  user_is_active : Bool
deriving DecidableEq, Repr

structure Login where
  login_id : Nat
  user_id : Nat
  login_timestamp : Nat
  ip_address : String
deriving DecidableEq, Repr

structure Farm where
  farm_id : Nat
  user_id : Nat
  farm_abbrev : String
  crop_type : String
  farm_size : Int
  farm_location : String
  farm_status : FarmStatusEnum
  farm_is_active : Bool
  record_created_date : Nat
  record_updated_date : Option Nat
deriving DecidableEq, Repr

structure FarmExpect where
  farm_expect_id : Nat
  farm_id : Nat
  farm_abbrev : String
  expected_harvest_date : Nat
  expected_harvest_base_uom : Int
  expected_income : Int
  record_status : FarmExpectationEnum
  record_created_date : Nat
  record_updated_date : Option Nat
deriving DecidableEq, Repr

structure CropDtl where
  crop_id : Nat
  farm_id : Nat
  nfc_code : String
  farm_abbrev : String
  crop_type : String
  crop_subtype : String
  plantation_date : Nat
  method_id : Nat
  crop_yrs : Int
  crop_stage : Option CropGrowingStageEnum
  last_harvest_date : Option Nat
  record_created_date : Nat
  crop_modified_date : Option Nat
  crop_status : CropStatusEnum
  crop_is_active : Bool
deriving DecidableEq, Repr

structure CropDaily where
  daily_id : Nat
  crop_id : Nat
  nfc_code : String
  crop_stage : CropGrowingStageEnum
  stage_duration_day : Int
  crop_status : DailyCropStatusEnum
  record_created_date : Nat
  record_updated_date : Option Nat
deriving DecidableEq, Repr

structure PlantMethod where
  plant_method_id : Nat
  method : String
  other_method : Option String
  record_created_by : Option Nat
  record_status : MethodStatusEnum
  record_created_date : Nat
  record_updated_date : Option Nat
deriving DecidableEq, Repr

structure Expense where
  expenses_id : Nat
  farm_id : Nat
  category : String
  description : Option String
  amount : Int
  transaction_date : Nat
  record_status : RecordStatusEnum
  record_created_date : Nat
  record_updated_date : Option Nat
deriving DecidableEq, Repr

/-- Harvest rows exactly as src/models/model.py declares them (lines
294-314): there is NO farm_id column.  src/routes/harvest.py nevertheless
passes farm_id to the constructor and dereferences Harvest.farm_id /
harvest_record.farm_id, which raises TypeError / AttributeError in the
source; the route embeddings below surface those crashes as the 500s the
client receives. -/
structure Harvest where
  harvest_id : Nat
  crop_id : Nat
  nfc_code : String
  quantity : Int
  harvest_unit : HarvestUnitEnum
  estimated_kg : Option Int
  harvest_avg_quality : HarvestQualityEnum
  earn : Int
  harvest_date : Nat
  record_status : RecordStatusEnum
  record_created_date : Nat
  record_updated_date : Option Nat
deriving DecidableEq, Repr

/-- The relational state: one list per table. -/
structure DB where
  users : List User
  logins : List Login
  farms : List Farm
  farm_expects : List FarmExpect
  crops : List CropDtl
  dailies : List CropDaily
  methods : List PlantMethod
  expenses : List Expense
  harvests : List Harvest
deriving DecidableEq, Repr

/-- An HTTP error response (HTTPException in the source). -/
structure HErr where
  status : Nat
  detail : String
deriving DecidableEq, Repr

/-- SQLAlchemy scalar_one_or_none: none for an empty result, the row for a
singleton, and MultipleResultsFound - surfaced as a 500 - otherwise. -/
def scalarOneOrNone {α : Type} (l : List α) : Except HErr (Option α) :=
  match l with
  | [] => .ok none
  | [x] => .ok (some x)
  | _ => .error ⟨500, "Multiple rows were found when one or none was required"⟩

/-- Autoincrement primary key: one more than the largest id in use. -/
def nextId (ids : List Nat) : Nat := ids.foldr max 0 + 1

def statusOf {α : Type} : Except HErr α → Option Nat
  | .error e => some e.status
  | .ok _ => none

def isOkE {α : Type} : Except HErr α → Bool
  | .error _ => false
  | .ok _ => true

/-! ## Authentication (src/dependencies.py, src/routes/login.py)

A bearer token is modelled structurally: the JWT library (an excluded
external collaborator) is abstracted to a record carrying whether the
signature verifies, the expiry instant, and the sub claim.  jwt.decode
raises JWTError exactly when the signature is invalid or the token has
expired. -/

structure Token where
  sigValid : Bool
  exp : Nat
  sub : Option Nat
deriving DecidableEq, Repr

def credentials_exception : HErr := ⟨401, "Could not validate credentials"⟩

/-- get_current_user (src/dependencies.py).  A missing Authorization header
makes the OAuth2 scheme fail with 401 before the dependency body runs; the
other branches mirror the source: JWTError on bad signature or expiry,
missing sub, unknown user - each answered with the 401
credentials_exception (carrying a WWW-Authenticate Bearer header in the
source). -/
def get_current_user (tok : Option Token) (now : Nat) (users : List User) :
    Except HErr User :=
  match tok with
  | none => .error credentials_exception
  | some t =>
    if ¬ t.sigValid ∨ t.exp ≤ now then .error credentials_exception
    else
      match t.sub with
      | none => .error credentials_exception
      | some uid =>
        match users.find? (fun u => u.user_id == uid) with
        | none => .error credentials_exception
        | some u => .ok u

/-- FastAPI dependency injection: a handler declaring
current_user = Depends(get_current_user) only runs once the token has been
resolved; a failure of the dependency is returned as-is, before any
handler code (and hence before any write). -/
def withAuth {α : Type} (tok : Option Token) (now : Nat) (db : DB)
    (handler : User → Except HErr α) : Except HErr α :=
  match get_current_user tok now db.users with
  | .error e => .error e
  | .ok u => handler u

/-- create_access_token (src/routes/login.py): a signed token whose sub is
the user id and whose expiry is now plus the configured ttl. -/
def create_access_token (uid : Nat) (now ttlSecs : Nat) : Token :=
  ⟨true, now + ttlSecs, some uid⟩

structure LoginCreate where
  email : String
  password : String
deriving DecidableEq, Repr

/-- login_user (src/routes/login.py).  verify is passlib's bcrypt check, an
excluded external collaborator, passed as a parameter.  The source commits
twice: once right after inserting the Login audit row and once after
updating User.last_login_date.  crashBetweenCommits simulates a failure of
the second write: the function returns the response (or error) together
with the durable state, i.e. what the committed transactions left in the
database. -/
def login_user (verify : String → String → Bool) (login_data : LoginCreate)
    (client_ip : String) (now ttlSecs : Nat) (crashBetweenCommits : Bool)
    (db : DB) : Except HErr (Token × Nat) × DB :=
  match (db.users.filter (fun u => u.email == login_data.email)).head? with
  | none => (.error ⟨404, "No registered user found with this email"⟩, db)
  | some user =>
    if ¬ verify login_data.password user.password then
      (.error ⟨401, "Incorrect password"⟩, db)
    else
      let new_login : Login :=
        { login_id := nextId (db.logins.map (·.login_id)),
          user_id := user.user_id,
          login_timestamp := now,
          ip_address := client_ip }
      -- first commit: the audit row is durable from here on
      let db1 : DB := { db with logins := db.logins ++ [new_login] }
      if crashBetweenCommits then (.error ⟨500, "database failure"⟩, db1)
      else
        -- second commit: the last_login_date update
        let db2 : DB := { db1 with users := db1.users.map (fun u =>
          if u.user_id == user.user_id then
            { u with last_login_date := some new_login.login_timestamp }
          else u) }
        (.ok (create_access_token user.user_id now ttlSecs, user.user_id), db2)

/-! ## Harvest routes (src/routes/harvest.py) -/

structure CreateHarvest where
  nfc_code : String
  quantity : Int
  harvest_unit : HarvestUnitEnum
  estimated_kg : Option Int
  harvest_avg_quality : HarvestQualityEnum
  earn : Int
  harvest_date : Nat
deriving DecidableEq, Repr

structure UpdateHarvest where
  quantity : Option Int
  harvest_unit : Option HarvestUnitEnum
  estimated_kg : Option Int
  harvest_avg_quality : Option HarvestQualityEnum
  earn : Option Int
  harvest_date : Option Nat
deriving DecidableEq, Repr

/-- The body of the try block of create_harvest_from_nfc
(src/routes/harvest.py).  Steps 1-4 run as written; the duplicate-day
check at step 3 compares the stored harvest_date timestamp with
new_harvest.harvest_date.date(): under PostgreSQL the date is cast to the
midnight timestamp of that day, so only rows stored at exactly 00:00 can
match.  Step 5 then calls model.Harvest(..., farm_id=crop.farm_id, ...)
(harvest.py:70), but the model has no farm_id column, so the declarative
constructor raises TypeError before anything is added to the session: no
harvest row or last_harvest_date write ever happens. -/
def create_harvest_from_nfc_inner (current_user : User)
    (new_harvest : CreateHarvest) (now : Nat) (db : DB) :
    Except HErr (DB × Harvest) := do
  -- Step 1: retrieve crop by NFC code and verify crop status is active
  let some crop ← scalarOneOrNone
      (db.crops.filter (fun c => c.nfc_code == new_harvest.nfc_code))
    | throw ⟨404, "Crop with this NFC code not found"⟩
  if crop.crop_status ≠ CropStatusEnum.active then
    throw ⟨400, "Crop is not active"⟩
  -- Step 2: verify that the crop belongs to the current user
  let some _farm ← scalarOneOrNone (db.farms.filter (fun f =>
      f.farm_id == crop.farm_id && f.user_id == current_user.user_id))
    | throw ⟨403, "You do not have permission to harvest this crop"⟩
  -- Step 3: ensure no harvest exists on the same day for the same NFC code
  let existing_harvest ← scalarOneOrNone (db.harvests.filter (fun h =>
      h.nfc_code == new_harvest.nfc_code &&
      h.harvest_date == midnightOf (dateOf new_harvest.harvest_date) &&
      h.record_status == RecordStatusEnum.active))
  if existing_harvest.isSome then
    throw ⟨400, "Harvest already exists for this crop today"⟩
  -- Step 4: if harvest_unit is the discrete kind, estimated_kg must be given
  if new_harvest.harvest_unit == HarvestUnitEnum.unit &&
      new_harvest.estimated_kg == none then
    throw ⟨400, "estimated_kg must be provided when harvest_unit is the discrete kind"⟩
  -- Step 5: model.Harvest(..., farm_id=..., ...) - an invalid keyword for
  -- the declarative constructor, raised before any session mutation
  throw ⟨500, "TypeError: farm_id is an invalid keyword argument for Harvest"⟩

/-- create_harvest_from_nfc: the whole body sits in a try block whose
except clause rolls back and re-raises every exception - HTTPException
included - as a 500 whose detail stringifies the original error. -/
def create_harvest_from_nfc (current_user : User) (new_harvest : CreateHarvest)
    (now : Nat) (db : DB) : Except HErr (DB × Harvest) :=
  match create_harvest_from_nfc_inner current_user new_harvest now db with
  | .ok r => .ok r
  | .error e => .error ⟨500, e.detail⟩

/-- The mounted endpoint: token resolution happens in the dependency,
outside the try block. -/
def create_harvest_endpoint (tok : Option Token) (new_harvest : CreateHarvest)
    (now : Nat) (db : DB) : Except HErr (DB × Harvest) :=
  withAuth tok now db (fun u => create_harvest_from_nfc u new_harvest now db)

/-- update_harvest (src/routes/harvest.py).  Steps 1-2 run as written;
step 3 builds a query over model.Harvest.farm_id (harvest.py:226), an
attribute the model does not define, so constructing the select raises
AttributeError - an unhandled exception the framework answers with a 500.
The 422 estimated_kg validation at step 4 and every write sit below that
line and are unreachable: no update ever mutates the database. -/
def update_harvest (current_user : User) (nfc_code : String) (harvest_id : Nat)
    (update_data : UpdateHarvest) (now : Nat) (db : DB) :
    Except HErr (DB × Harvest) := do
  -- 1. get crop by NFC code and check that it is active
  let some crop ← scalarOneOrNone (db.crops.filter (fun c =>
      c.nfc_code == nfc_code && c.crop_status == CropStatusEnum.active))
    | throw ⟨404, "Active crop not found"⟩
  -- 2. verify farm ownership
  let some _farm ← scalarOneOrNone (db.farms.filter (fun f =>
      f.farm_id == crop.farm_id && f.user_id == current_user.user_id))
    | throw ⟨403, "Not authorized to update this crop"⟩
  -- 3. select(...).where(model.Harvest.farm_id == ...): the class has no
  -- farm_id attribute, so query construction itself raises
  throw ⟨500, "AttributeError: type object Harvest has no attribute farm_id"⟩

def update_harvest_endpoint (tok : Option Token) (nfc_code : String)
    (harvest_id : Nat) (update_data : UpdateHarvest) (now : Nat) (db : DB) :
    Except HErr (DB × Harvest) :=
  withAuth tok now db (fun u => update_harvest u nfc_code harvest_id update_data now db)

/-- soft_delete_harvest (src/routes/harvest.py).  Step 1's lookup and
step 2's already-deleted early return run as written; step 3 then reads
harvest_record.farm_id (harvest.py:279), an attribute the model does not
map, raising AttributeError - an unhandled exception answered with a 500.
The recompute of last_harvest_date and the soft delete itself (steps 4-7)
are unreachable: the only successful outcome is the step-2 no-op, which
returns the state unchanged. -/
def soft_delete_harvest (current_user : User) (harvest_id : Nat) (now : Nat)
    (db : DB) : Except HErr (DB × Option Nat) := do
  -- Step 1: retrieve harvest record
  let some harvest_record ← scalarOneOrNone
      (db.harvests.filter (fun h => h.harvest_id == harvest_id))
    | throw ⟨404, "Harvest record not found"⟩
  -- Step 2: if already deleted, return without touching anything
  if harvest_record.record_status == RecordStatusEnum.deleted then
    pure (db, none)
  else
    -- Step 3: select(...).where(... == harvest_record.farm_id): the
    -- instance has no farm_id attribute, so the access raises
    throw ⟨500, "AttributeError: Harvest object has no attribute farm_id"⟩

def soft_delete_harvest_endpoint (tok : Option Token) (harvest_id : Nat)
    (now : Nat) (db : DB) : Except HErr (DB × Option Nat) :=
  withAuth tok now db (fun u => soft_delete_harvest u harvest_id now db)

/-! ## CropDaily routes (src/routes/dailyCrop.py) -/

structure CreateDailyCrop where
  nfc_code : String
  crop_stage : CropGrowingStageEnum
  stage_duration_day : Int
deriving DecidableEq, Repr

structure UpdateDailyCrop where
  crop_stage : Option CropGrowingStageEnum
  stage_duration_day : Option Int
deriving DecidableEq, Repr

/-- ORDER BY record_created_date DESC for CropDaily rows. -/
def dailyCreatedGE (a b : CropDaily) : Prop :=
  b.record_created_date ≤ a.record_created_date

instance : DecidableRel dailyCreatedGE := fun a b =>
  inferInstanceAs (Decidable (b.record_created_date ≤ a.record_created_date))

instance : IsTotal CropDaily dailyCreatedGE :=
  ⟨fun a b => (Nat.le_total b.record_created_date a.record_created_date).imp id id⟩

instance : IsTrans CropDaily dailyCreatedGE :=
  ⟨fun _ _ _ h1 h2 => Nat.le_trans h2 h1⟩

def sortDailiesDesc (l : List CropDaily) : List CropDaily :=
  List.insertionSort dailyCreatedGE l

/-- create_daily_crop (src/routes/dailyCrop.py).  The route declares no
current_user dependency: it runs with no bearer token and no ownership
check.  The same-day check keeps rows whose record_created_date falls
inside the current calendar day. -/
def create_daily_crop (daily_crop : CreateDailyCrop) (now : Nat) (db : DB) :
    Except HErr (DB × CropDaily) := do
  -- Step 1: find the parent crop by NFC code
  let some crop ← scalarOneOrNone (db.crops.filter (fun c =>
      c.nfc_code == daily_crop.nfc_code && c.crop_is_active))
    | throw ⟨404, "Crop not found for given NFC code."⟩
  -- Step 2: check whether an active record for today already exists
  let existing ← scalarOneOrNone (db.dailies.filter (fun d =>
      d.nfc_code == daily_crop.nfc_code &&
      dateOf d.record_created_date == dateOf now &&
      d.crop_status == DailyCropStatusEnum.active))
  if existing.isSome then
    throw ⟨400, "A daily crop record already exists for today."⟩
  -- Step 3: create the new daily crop record
  let new_daily_crop : CropDaily :=
    { daily_id := nextId (db.dailies.map (·.daily_id)),
      crop_id := crop.crop_id,
      nfc_code := daily_crop.nfc_code,
      crop_stage := daily_crop.crop_stage,
      stage_duration_day := daily_crop.stage_duration_day,
      crop_status := DailyCropStatusEnum.active,
      record_created_date := now,
      record_updated_date := none }
  -- Step 4: update the parent crop stage if it changed
  let crops' :=
    if crop.crop_stage ≠ some daily_crop.crop_stage then
      db.crops.map (fun c =>
        if c.crop_id == crop.crop_id then
          { c with crop_stage := some daily_crop.crop_stage,
                   crop_modified_date := some now }
        else c)
    else db.crops
  pure ({ db with dailies := db.dailies ++ [new_daily_crop], crops := crops' },
        new_daily_crop)

/-- update_latest_daily_crop (src/routes/dailyCrop.py).  The latest record
is chosen over all CropDaily rows for the nfc, with no status filter. -/
def update_latest_daily_crop (current_user : User) (nfc_code : String)
    (daily_crop_update : UpdateDailyCrop) (now : Nat) (db : DB) :
    Except HErr (DB × CropDaily) := do
  -- Step 1: crop joined with farm, filtered on nfc, activity and ownership
  let some crop ← scalarOneOrNone (db.crops.filter (fun c =>
      c.nfc_code == nfc_code && c.crop_is_active &&
      db.farms.any (fun f =>
        f.farm_id == c.farm_id && f.user_id == current_user.user_id)))
    | throw ⟨403, "Access denied or crop not found."⟩
  -- Step 2: latest CropDaily record for this crop (limit 1)
  let some latest_daily :=
      (sortDailiesDesc (db.dailies.filter (fun d => d.nfc_code == nfc_code))).head?
    | throw ⟨404, "No daily record found for crop"⟩
  -- Steps 3-4: apply submitted fields and stamp record_updated_date
  let apply : CropDaily → CropDaily := fun d =>
    { d with
      crop_stage := daily_crop_update.crop_stage.getD d.crop_stage,
      stage_duration_day :=
        daily_crop_update.stage_duration_day.getD d.stage_duration_day,
      record_updated_date := some now }
  let dailies' := db.dailies.map (fun d =>
    if d.daily_id == latest_daily.daily_id then apply d else d)
  -- Step 5: if crop_stage was submitted and differs, update the parent crop
  let crops' :=
    match daily_crop_update.crop_stage with
    | some s =>
      if crop.crop_stage ≠ some s then
        db.crops.map (fun c =>
          if c.crop_id == crop.crop_id then
            { c with crop_stage := some s, crop_modified_date := some now }
          else c)
      else db.crops
    | none => db.crops
  pure ({ db with dailies := dailies', crops := crops' }, apply latest_daily)

def update_latest_daily_crop_endpoint (tok : Option Token) (nfc_code : String)
    (daily_crop_update : UpdateDailyCrop) (now : Nat) (db : DB) :
    Except HErr (DB × CropDaily) :=
  withAuth tok now db (fun u =>
    update_latest_daily_crop u nfc_code daily_crop_update now db)

/-- soft_delete_today_daily_crop_by_nfc (src/routes/dailyCrop.py).  The
recompute query runs after the in-session soft delete has been flushed, so
it sees the record already marked deleted. -/
def soft_delete_today_daily_crop_by_nfc (current_user : User)
    (nfc_code : String) (now : Nat) (db : DB) : Except HErr DB := do
  -- Step 1: find the crop by NFC
  let some crop ← scalarOneOrNone (db.crops.filter (fun c =>
      c.nfc_code == nfc_code && c.crop_is_active))
    | throw ⟨404, "Crop not found."⟩
  -- Step 2: check that the farm belongs to the current user
  let some _farm ← scalarOneOrNone (db.farms.filter (fun f =>
      f.farm_id == crop.farm_id && f.user_id == current_user.user_id))
    | throw ⟨403, "Access denied to this crop."⟩
  -- Step 3: get today's not-yet-deleted daily crop
  let some daily_crop ← scalarOneOrNone (db.dailies.filter (fun d =>
      d.nfc_code == nfc_code &&
      dateOf d.record_created_date == dateOf now &&
      d.crop_status ≠ DailyCropStatusEnum.deleted))
    | throw ⟨400, "No daily record for today. Cannot delete previous records."⟩
  -- Step 4: soft delete
  let dailies' := db.dailies.map (fun d =>
    if d.daily_id == daily_crop.daily_id then
      { d with crop_status := DailyCropStatusEnum.deleted,
               record_updated_date := some now }
    else d)
  -- Step 5: reset the crop stage if the deleted record carried it
  let crops' :=
    if crop.crop_stage == some daily_crop.crop_stage then
      let latest_active_stage :=
        ((sortDailiesDesc (dailies'.filter (fun d =>
            d.nfc_code == nfc_code &&
            d.crop_status ≠ DailyCropStatusEnum.deleted))).head?).map
          (·.crop_stage)
      db.crops.map (fun c =>
        if c.crop_id == crop.crop_id then
          { c with crop_stage := latest_active_stage,
                   crop_modified_date := some now }
        else c)
    else db.crops
  pure { db with dailies := dailies', crops := crops' }

def soft_delete_today_daily_crop_endpoint (tok : Option Token)
    (nfc_code : String) (now : Nat) (db : DB) : Except HErr DB :=
  withAuth tok now db (fun u =>
    soft_delete_today_daily_crop_by_nfc u nfc_code now db)

/-! ## Farm routes (src/routes/FarmCRUD.py) -/

/-- get_farm (src/routes/FarmCRUD.py).  The route takes no current_user
dependency at all: any requester, authenticated or not, receives any
existing farm. -/
def get_farm (farm_id : Nat) (db : DB) : Except HErr Farm :=
  match scalarOneOrNone (db.farms.filter (fun f => f.farm_id == farm_id)) with
  | .error e => .error e
  | .ok none => .error ⟨404, "Farm not found"⟩
  | .ok (some farm_obj) => .ok farm_obj

/-- soft_delete_farm (src/routes/FarmCRUD.py).  All mutations happen in the
session before the first commit, so that commit persists the farm update
and the expectation update together; crashAtCommit simulates the commit
failing, in which case nothing is durable.  The expectation lookup uses
scalar_one_or_none, which raises (a 500) when the farm has more than one
FarmExpect row.  Returns the response (or error) with the durable state. -/
def soft_delete_farm (current_user : User) (farm_id : Nat) (now : Nat)
    (crashAtCommit : Bool) (db : DB) : Except HErr DB × DB :=
  match scalarOneOrNone (db.farms.filter (fun f => f.farm_id == farm_id)) with
  | .error e => (.error e, db)
  | .ok none => (.error ⟨404, "Farm not found"⟩, db)
  | .ok (some farm_obj) =>
    if farm_obj.user_id ≠ current_user.user_id then
      (.error ⟨403, "Unauthorized to delete this farm"⟩, db)
    else
      let farms' := db.farms.map (fun f =>
        if f.farm_id == farm_id then
          { f with farm_is_active := false,
                   farm_status := FarmStatusEnum.terminated,
                   record_updated_date := some now }
        else f)
      let pending1 : DB := { db with farms := farms' }
      match scalarOneOrNone (pending1.farm_expects.filter (fun e =>
          e.farm_id == farm_id)) with
      | .error e => (.error e, db)
      | .ok none =>
        if crashAtCommit then (.error ⟨500, "database failure"⟩, db)
        else (.ok pending1, pending1)
      | .ok (some farm_expect) =>
        -- the expectation is stamped with the same record_updated_date
        let pending2 : DB := { pending1 with
          farm_expects := pending1.farm_expects.map (fun e =>
            if e.farm_expect_id == farm_expect.farm_expect_id then
              { e with record_status := FarmExpectationEnum.deleted,
                       record_updated_date := some now }
            else e) }
        if crashAtCommit then (.error ⟨500, "database failure"⟩, db)
        else (.ok pending2, pending2)

def soft_delete_farm_endpoint (tok : Option Token) (farm_id : Nat) (now : Nat)
    (crashAtCommit : Bool) (db : DB) : Except HErr DB × DB :=
  match get_current_user tok now db.users with
  | .error e => (.error e, db)
  | .ok u => soft_delete_farm u farm_id now crashAtCommit db

/-! ## Crop routes (src/routes/cropCRUD.py) -/

structure CreateCrop where
  nfc_code : String
  farm_abbrev : String
  crop_type : String
  crop_subtype : String
  plantation_date : Nat
  method_id : Nat
  last_harvest_date : Option Nat
  other_method : Option String
deriving DecidableEq, Repr

structure UpdateCropM where
  method_id : Option Nat
  crop_subtype : Option String
  last_harvest_date : Option Nat
  plantation_date : Option Nat
  other_method : Option String
deriving DecidableEq, Repr

/-- Stand-in for dateutil's relativedelta-based crop age (an excluded
external collaborator): whole years between the two instants, rounded to
days here.  No claim depends on its value. -/
def cropYrsCalc (record_created plantation : Nat) : Int :=
  ((dateOf record_created - dateOf plantation) / 365 : Nat)

/-- get_crop_by_nfc_code helper (src/routes/cropCRUD.py). -/
def get_crop_by_nfc_code (nfc_code : String) (db : DB) : Except HErr CropDtl :=
  match scalarOneOrNone (db.crops.filter (fun c => c.nfc_code == nfc_code)) with
  | .error e => .error e
  | .ok none => .error ⟨404, "Crop not found"⟩
  | .ok (some crop) => .ok crop

/-- verify_farm_ownership helper (src/routes/cropCRUD.py). -/
def verify_farm_ownership (crop : CropDtl) (current_user : User) (db : DB) :
    Except HErr Unit :=
  match scalarOneOrNone (db.farms.filter (fun f =>
      f.farm_id == crop.farm_id && f.user_id == current_user.user_id)) with
  | .error e => .error e
  | .ok none => .error ⟨403, "You are not authorized to access this crop."⟩
  | .ok (some _) => .ok ()

/-- get_crop (src/routes/cropCRUD.py). -/
def get_crop (current_user : User) (nfc_code : String) (db : DB) :
    Except HErr CropDtl := do
  let crop ← get_crop_by_nfc_code nfc_code db
  let _ ← verify_farm_ownership crop current_user db
  pure crop

/-- create_crop (src/routes/cropCRUD.py).  A free-text other_method first
creates a user-owned PlantMethod row; an explicitly supplied method_id is
attached with no check of the method's creator. -/
def create_crop (current_user : User) (crop : CreateCrop) (now : Nat) (db : DB) :
    Except HErr (DB × CropDtl) := do
  -- 1. reject a duplicate NFC code
  let existing ← scalarOneOrNone (db.crops.filter (fun c =>
      c.nfc_code == crop.nfc_code))
  if existing.isSome then
    throw ⟨400, "NFC code already exists, cannot create duplicate crop."⟩
  -- 2. look up the farm by abbreviation, owner and activity
  let some farm ← scalarOneOrNone (db.farms.filter (fun f =>
      f.farm_abbrev == crop.farm_abbrev && f.user_id == current_user.user_id &&
      f.farm_is_active))
    | throw ⟨404, "Farm not found or not authorized."⟩
  -- unreachable given the query filter, kept as in the source
  if farm.user_id ≠ current_user.user_id then
    throw ⟨403, "You are not authorized to create crop in this farm."⟩
  -- 3. handle other_method (creates a method row to obtain an id)
  let withMethod : DB × Nat :=
    match crop.other_method with
    | some om =>
      if om ≠ "" then
        let new_method : PlantMethod :=
          { plant_method_id := nextId (db.methods.map (·.plant_method_id)),
            method := om,
            other_method := some om,
            record_created_by := some current_user.user_id,
            record_status := MethodStatusEnum.active,
            record_created_date := now,
            record_updated_date := none }
        ({ db with methods := db.methods ++ [new_method] },
         new_method.plant_method_id)
      else (db, crop.method_id)
    | none => (db, crop.method_id)
  let db2 := withMethod.1
  let method_id_to_use := withMethod.2
  -- 4-5. create the crop with the looked-up farm and chosen method
  let new_crop : CropDtl :=
    { crop_id := nextId (db2.crops.map (·.crop_id)),
      farm_id := farm.farm_id,
      nfc_code := crop.nfc_code,
      farm_abbrev := crop.farm_abbrev,
      crop_type := crop.crop_type,
      crop_subtype := crop.crop_subtype,
      plantation_date := crop.plantation_date,
      method_id := method_id_to_use,
      crop_yrs := cropYrsCalc now crop.plantation_date,
      crop_stage := none,
      last_harvest_date := crop.last_harvest_date,
      record_created_date := now,
      crop_modified_date := none,
      crop_status := CropStatusEnum.active,
      crop_is_active := true }
  pure ({ db2 with crops := db2.crops ++ [new_crop] }, new_crop)

/-- update_crop (src/routes/cropCRUD.py).  Only here is a submitted
method_id checked against the method's creator. -/
def update_crop (current_user : User) (nfc_code : String)
    (crop_update : UpdateCropM) (now : Nat) (db : DB) :
    Except HErr (DB × CropDtl) := do
  let crop ← get_crop_by_nfc_code nfc_code db
  let _ ← verify_farm_ownership crop current_user db
  -- handle other_method first (creates a new method row)
  let withMethod : DB × Option Nat :=
    match crop_update.other_method with
    | some om =>
      if om ≠ "" then
        let new_method : PlantMethod :=
          { plant_method_id := nextId (db.methods.map (·.plant_method_id)),
            method := om,
            other_method := some om,
            record_created_by := some current_user.user_id,
            record_status := MethodStatusEnum.active,
            record_created_date := now,
            record_updated_date := none }
        ({ db with methods := db.methods ++ [new_method] },
         some new_method.plant_method_id)
      else (db, crop_update.method_id)
    | none => (db, crop_update.method_id)
  let db2 := withMethod.1
  let updates_method_id := withMethod.2
  -- method authorization (global methods, with a null creator, are skipped)
  let methodAuth : Except HErr Unit :=
    match updates_method_id with
    | some mid =>
      match scalarOneOrNone (db2.methods.filter (fun m =>
          m.plant_method_id == mid)) with
      | .error e => .error e
      | .ok none => .error ⟨404, "Method not found."⟩
      | .ok (some method) =>
        if method.record_created_by ≠ none ∧
            method.record_created_by ≠ some current_user.user_id then
          .error ⟨403, "You are not authorized to use this method."⟩
        else .ok ()
    | none => .ok ()
  let _ ← methodAuth
  -- apply updates; crop_yrs is recalculated when plantation_date changed
  let apply : CropDtl → CropDtl := fun c =>
    let c' := { c with
      method_id := updates_method_id.getD c.method_id,
      crop_subtype := crop_update.crop_subtype.getD c.crop_subtype,
      last_harvest_date := match crop_update.last_harvest_date with
        | some v => some v
        | none => c.last_harvest_date,
      plantation_date := crop_update.plantation_date.getD c.plantation_date }
    { c' with
      crop_yrs := if crop_update.plantation_date.isSome then
          cropYrsCalc now c'.plantation_date
        else c'.crop_yrs,
      crop_modified_date := some now }
  let crops' := db2.crops.map (fun c =>
    if c.crop_id == crop.crop_id then apply c else c)
  pure ({ db2 with crops := crops' }, apply crop)

/-- soft_delete_crop (src/routes/cropCRUD.py).  After terminating the crop,
when no other active crop references its method the method itself is soft
deleted - with no check of record_created_by, so global methods included.
The reference query runs after the in-session crop mutation is flushed. -/
def soft_delete_crop (current_user : User) (nfc_code : String) (now : Nat)
    (db : DB) : Except HErr DB := do
  let crop ← get_crop_by_nfc_code nfc_code db
  let _ ← verify_farm_ownership crop current_user db
  -- 1. soft delete the crop
  let crops' := db.crops.map (fun c =>
    if c.crop_id == crop.crop_id then
      { c with crop_is_active := false,
               crop_status := CropStatusEnum.terminated,
               crop_modified_date := some now }
    else c)
  -- 2. soft delete the method when no other active crop still uses it
  let method_id := crop.method_id
  let methods' :=
    if method_id ≠ 0 then
      let other_crops := crops'.filter (fun c =>
        c.method_id == method_id && c.crop_is_active && c.nfc_code != nfc_code)
      if other_crops.isEmpty then
        db.methods.map (fun m =>
          if m.plant_method_id == method_id then
            { m with record_status := MethodStatusEnum.deleted,
                     record_updated_date := some now }
          else m)
      else db.methods
    else db.methods
  pure { db with crops := crops', methods := methods' }

/-! ## Plant method listing (src/routes/getPlantMethod.py) -/

/-- ORDER BY method (name) for PlantMethod rows. -/
def methodNameLE (a b : PlantMethod) : Prop := a.method ≤ b.method

instance : DecidableRel methodNameLE := fun a b =>
  inferInstanceAs (Decidable (a.method ≤ b.method))

/-- get_available_methods (src/routes/getPlantMethod.py): all active
methods that are global or created by the current user. -/
def get_available_methods (current_user : User) (db : DB) : List PlantMethod :=
  List.insertionSort methodNameLE (db.methods.filter (fun m =>
    m.record_status == MethodStatusEnum.active &&
    (m.record_created_by == none ||
     m.record_created_by == some current_user.user_id)))

/-! ## Expense delete (src/routes/expensesCRUD.py) -/

/-- delete_expense (src/routes/expensesCRUD.py). -/
def delete_expense (current_user : User) (expense_id : Nat) (now : Nat)
    (db : DB) : Except HErr DB := do
  let some expense ← scalarOneOrNone (db.expenses.filter (fun e =>
      e.expenses_id == expense_id &&
      e.record_status == RecordStatusEnum.active))
    | throw ⟨404, "Expense not found"⟩
  let some _farm ← scalarOneOrNone (db.farms.filter (fun f =>
      f.farm_id == expense.farm_id && f.user_id == current_user.user_id))
    | throw ⟨403, "Access denied to this expense"⟩
  pure { db with expenses := db.expenses.map (fun e =>
    if e.expenses_id == expense_id then
      { e with record_status := RecordStatusEnum.deleted,
               record_updated_date := some now }
    else e) }

/-! ## Derived-field invariants (spec section 8) -/

/-- The active harvests of a crop identified by its nfc code (the set the
spec's last_harvest_date invariant ranges over). -/
def activeHarvests (db : DB) (nfc : String) : List Harvest :=
  db.harvests.filter (fun h =>
    h.nfc_code == nfc && h.record_status == RecordStatusEnum.active)

/-- Spec: last_harvest_date equals the maximum harvest_date over the
active harvests, and null when there are none. -/
def lastHarvestInv (db : DB) (c : CropDtl) : Prop :=
  (activeHarvests db c.nfc_code = [] ∧ c.last_harvest_date = none) ∨
  ∃ h ∈ activeHarvests db c.nfc_code,
    (∀ h' ∈ activeHarvests db c.nfc_code, h'.harvest_date ≤ h.harvest_date) ∧
    c.last_harvest_date = some h.harvest_date

instance (db : DB) (c : CropDtl) : Decidable (lastHarvestInv db c) := by
  unfold lastHarvestInv; infer_instance

/-- The non-deleted CropDaily records of a crop. -/
def liveDailies (db : DB) (nfc : String) : List CropDaily :=
  db.dailies.filter (fun d =>
    d.nfc_code == nfc && d.crop_status ≠ DailyCropStatusEnum.deleted)

/-- Spec: crop_stage equals the stage of the non-deleted CropDaily record
with the latest record_created_date, and null when none remain. -/
def cropStageInv (db : DB) (c : CropDtl) : Prop :=
  (liveDailies db c.nfc_code = [] ∧ c.crop_stage = none) ∨
  ∃ d ∈ liveDailies db c.nfc_code,
    (∀ d' ∈ liveDailies db c.nfc_code,
      d'.record_created_date ≤ d.record_created_date) ∧
    c.crop_stage = some d.crop_stage

instance (db : DB) (c : CropDtl) : Decidable (cropStageInv db c) := by
  unfold cropStageInv; infer_instance

/-! ## Generic list lemmas -/

/-- The head of an insertion sort under a total transitive relation is
maximal for it. -/
theorem insertionSort_head_max {α : Type} (r : α → α → Prop) [DecidableRel r]
    [IsTotal α r] [IsTrans α r] {l : List α} {x : α}
    (hx : (List.insertionSort r l).head? = some x) :
    x ∈ l ∧ ∀ y ∈ l, r x y := by
  have hsorted : List.Sorted r (List.insertionSort r l) :=
    List.sorted_insertionSort r l
  rcases hS : List.insertionSort r l with _ | ⟨a, t⟩
  · rw [hS] at hx; simp at hx
  · rw [hS] at hx hsorted
    have hax : a = x := by simpa using hx
    subst hax
    have hmem : a ∈ l := by
      have h1 : a ∈ List.insertionSort r l := by
        rw [hS]; exact List.mem_cons_self a t
      simpa using h1
    refine ⟨hmem, fun y hy => ?_⟩
    have hyS : y ∈ List.insertionSort r l := by
      simpa using hy
    rw [hS] at hyS
    rcases List.mem_cons.mp hyS with h | h
    · subst h
      rcases total_of r y y with h | h <;> exact h
    · exact (List.sorted_cons.mp hsorted).1 y h

/-- An insertion sort is empty exactly when its input is. -/
theorem insertionSort_eq_nil_iff {α : Type} (r : α → α → Prop) [DecidableRel r]
    (l : List α) : List.insertionSort r l = [] ↔ l = [] := by
  constructor
  · intro h
    have := List.perm_insertionSort r l
    rw [h] at this
    exact this.symm.eq_nil
  · intro h; subst h; rfl

/-- What find? returns on a sorted list dominates every later element
satisfying the predicate: it is maximal among the matches. -/
theorem find?_sorted_max {α : Type} (r : α → α → Prop) [DecidableRel r]
    [IsTotal α r] [IsTrans α r] {S : List α} (hs : List.Sorted r S)
    {p : α → Bool} {y : α} (hy : S.find? p = some y) :
    p y = true ∧ y ∈ S ∧ ∀ x ∈ S, p x = true → r y x := by
  rcases List.find?_eq_some.mp hy with ⟨hpy, as, bs, hSeq, has⟩
  subst hSeq
  refine ⟨hpy, by simp, fun x hx hpx => ?_⟩
  rcases List.mem_append.mp hx with h | h
  · exact absurd hpx (by simpa using has x h)
  · rcases List.mem_cons.mp h with h | h
    · subst h
      rcases total_of r x x with h | h <;> exact h
    · have := (List.pairwise_append.mp hs).2.1
      exact (List.sorted_cons.mp this).1 x h

/-- Mapping an update that invalidates the filter predicate on selected
rows equals filtering the selection out. -/
theorem filter_map_update_eq {α : Type} (l : List α) (p q : α → Bool)
    (f : α → α) (h1 : ∀ x, q x = true → p (f x) = false) :
    (l.map (fun x => if q x then f x else x)).filter p =
      (l.filter p).filter (fun x => !q x) := by
  induction l with
  | nil => rfl
  | cons a t ih =>
    by_cases hq : q a = true
    · by_cases hp : p a = true
      · simp [hq, hp, h1 a hq, ih]
      · simp [hq, hp, h1 a hq, ih, List.filter_cons]
    · have hq' : q a = false := by revert hq; cases q a <;> simp
      by_cases hp : p a = true
      · simp [hq', hp, ih, List.filter_cons]
      · simp [hq', hp, ih, List.filter_cons]

/-- A map that does not change the filter predicate commutes with the
filter. -/
theorem filter_map_comm_eq {α : Type} (l : List α) (p : α → Bool) (g : α → α)
    (h : ∀ x, p (g x) = p x) :
    (l.map g).filter p = (l.filter p).map g := by
  induction l with
  | nil => rfl
  | cons a t ih =>
    by_cases hp : p a = true
    · simp [List.filter_cons, h a, hp, ih]
    · simp [List.filter_cons, h a, hp, ih]

/-- In a list whose keys are pairwise distinct, two members with the same
key are the same value. -/
theorem eq_of_mem_nodup_keys {α β : Type} (key : α → β) {l : List α}
    (hn : (l.map key).Nodup) {x y : α} (hx : x ∈ l) (hy : y ∈ l)
    (hk : key x = key y) : x = y := by
  induction l with
  | nil => cases hx
  | cons a t ih =>
    have hn' : (t.map key).Nodup := (List.nodup_cons.mp hn).2
    have hna : key a ∉ t.map key := (List.nodup_cons.mp hn).1
    rcases List.mem_cons.mp hx with hxa | hxt
    · rcases List.mem_cons.mp hy with hya | hyt
      · rw [hxa, hya]
      · exfalso
        exact hna (by rw [hxa] at hk; rw [hk]; exact List.mem_map_of_mem key hyt)
    · rcases List.mem_cons.mp hy with hya | hyt
      · exfalso
        exact hna (by rw [hya] at hk; rw [← hk]; exact List.mem_map_of_mem key hxt)
      · exact ih hn' hxt hyt

instance {α : Type} [DecidableEq α] : DecidableEq (Except HErr α) := fun a b =>
  match a, b with
  | .ok x, .ok y =>
    if h : x = y then isTrue (by rw [h]) else isFalse (by intro hc; cases hc; exact h rfl)
  | .error x, .error y =>
    if h : x = y then isTrue (by rw [h]) else isFalse (by intro hc; cases hc; exact h rfl)
  | .ok _, .error _ => isFalse (by intro hc; cases hc)
  | .error _, .ok _ => isFalse (by intro hc; cases hc)

theorem scalarOneOrNone_ok_some {α : Type} {l : List α} {x : α}
    (h : scalarOneOrNone l = .ok (some x)) : l = [x] := by
  cases l with
  | nil => simp [scalarOneOrNone] at h
  | cons a t =>
    cases t with
    | nil => simp [scalarOneOrNone] at h; rw [h]
    | cons b t2 => simp [scalarOneOrNone] at h

theorem scalarOneOrNone_ok_none {α : Type} {l : List α}
    (h : scalarOneOrNone l = .ok none) : l = [] := by
  cases l with
  | nil => rfl
  | cons a t =>
    cases t with
    | nil => simp [scalarOneOrNone] at h
    | cons b t2 => simp [scalarOneOrNone] at h

theorem bind_ok_elim {α β : Type} (a : α) (k : α → Except HErr β) :
    (Except.ok a >>= k) = k a := rfl

theorem bind_error_elim {α β : Type} (e : HErr) (k : α → Except HErr β) :
    ((Except.error e : Except HErr α) >>= k) = .error e := rfl

theorem bind_pure_elim {α β : Type} (a : α) (k : α → Except HErr β) :
    ((pure a : Except HErr α) >>= k) = k a := rfl

/-- A map that fixes every member of a list leaves the list unchanged. -/
theorem map_eq_self_of_mem {α : Type} {l : List α} {f : α → α}
    (h : ∀ x ∈ l, f x = x) : l.map f = l := by
  induction l with
  | nil => rfl
  | cons a t ih =>
    rw [List.map_cons, h a (List.mem_cons_self a t),
      ih (fun x hx => h x (List.mem_cons_of_mem a hx))]

/-! ## Sample fixtures for concrete evaluations -/

def sampleUser1 : User :=
  { user_id := 1, first_name := "Ana", last_name := "One", email := "a@x",
    password := "hash1", phone_number := "01", registered_date := 0,
    last_login_date := none, user_status := UserStatus.active,
    user_is_active := true }

def sampleUser2 : User :=
  { user_id := 2, first_name := "Ben", last_name := "Two", email := "b@x",
    password := "hash2", phone_number := "02", registered_date := 0,
    last_login_date := none, user_status := UserStatus.active,
    user_is_active := true }

def sampleFarm1 : Farm :=
  { farm_id := 1, user_id := 1, farm_abbrev := "F1", crop_type := "tea",
    farm_size := 3, farm_location := "loc1",
    farm_status := FarmStatusEnum.active, farm_is_active := true,
    record_created_date := 0, record_updated_date := none }

def sampleFarm2 : Farm :=
  { farm_id := 2, user_id := 2, farm_abbrev := "F2", crop_type := "tea",
    farm_size := 4, farm_location := "loc2",
    farm_status := FarmStatusEnum.active, farm_is_active := true,
    record_created_date := 0, record_updated_date := none }

/-- A user-private method created by user 1. -/
def sampleMethodPriv : PlantMethod :=
  { plant_method_id := 1, method := "layering", other_method := none,
    record_created_by := some 1, record_status := MethodStatusEnum.active,
    record_created_date := 0, record_updated_date := none }

/-- A global method: null creator. -/
def sampleMethodGlobal : PlantMethod :=
  { plant_method_id := 2, method := "cutting", other_method := none,
    record_created_by := none, record_status := MethodStatusEnum.active,
    record_created_date := 0, record_updated_date := none }

def sampleCropA : CropDtl :=
  { crop_id := 1, farm_id := 1, nfc_code := "A", farm_abbrev := "F1",
    crop_type := "tea", crop_subtype := "green", plantation_date := 0,
    method_id := 2, crop_yrs := 0, crop_stage := none,
    last_harvest_date := none, record_created_date := 0,
    crop_modified_date := none, crop_status := CropStatusEnum.active,
    crop_is_active := true }

def baseDB : DB :=
  { users := [sampleUser1, sampleUser2], logins := [],
    farms := [sampleFarm1, sampleFarm2], farm_expects := [],
    crops := [sampleCropA], dailies := [],
    methods := [sampleMethodPriv, sampleMethodGlobal], expenses := [],
    harvests := [] }

/-! ## Claim C5: cross-user access -/

/-- C5 counterexample: the farm GET route resolves no user and checks no
ownership, so a requester who is not the owner (here: anyone at all, user 2
included) receives the farm owned by user 1, instead of the Forbidden the
claim requires.  The farm's data is returned. -/
theorem C5_counterexample :
    get_farm 1 baseDB = .ok sampleFarm1 ∧
    sampleFarm1.user_id ≠ sampleUser2.user_id := by
  constructor
  · rfl
  · decide

/-- C5 amended: crop GET/update/delete, farm delete and expense delete by
a non-owner fail with Forbidden (403); but the farm GET endpoint performs
no ownership check at all and returns any existing farm to any requester,
and a nonexistent crop yields NotFound (404) rather than Forbidden. -/
theorem C5_amended :
    (∀ (u : User) (nfc : String) (db : DB) (crop : CropDtl),
      db.crops.filter (fun c => c.nfc_code == nfc) = [crop] →
      db.farms.filter (fun f =>
        f.farm_id == crop.farm_id && f.user_id == u.user_id) = [] →
      get_crop u nfc db =
        .error ⟨403, "You are not authorized to access this crop."⟩) ∧
    (∀ (u : User) (nfc : String) (upd : UpdateCropM) (now : Nat) (db : DB)
       (crop : CropDtl),
      db.crops.filter (fun c => c.nfc_code == nfc) = [crop] →
      db.farms.filter (fun f =>
        f.farm_id == crop.farm_id && f.user_id == u.user_id) = [] →
      update_crop u nfc upd now db =
        .error ⟨403, "You are not authorized to access this crop."⟩) ∧
    (∀ (u : User) (nfc : String) (now : Nat) (db : DB) (crop : CropDtl),
      db.crops.filter (fun c => c.nfc_code == nfc) = [crop] →
      db.farms.filter (fun f =>
        f.farm_id == crop.farm_id && f.user_id == u.user_id) = [] →
      soft_delete_crop u nfc now db =
        .error ⟨403, "You are not authorized to access this crop."⟩) ∧
    (∀ (u : User) (fid now : Nat) (crash : Bool) (db : DB) (farm : Farm),
      db.farms.filter (fun f => f.farm_id == fid) = [farm] →
      farm.user_id ≠ u.user_id →
      soft_delete_farm u fid now crash db =
        (.error ⟨403, "Unauthorized to delete this farm"⟩, db)) ∧
    (∀ (u : User) (eid now : Nat) (db : DB) (exp : Expense),
      db.expenses.filter (fun e =>
        e.expenses_id == eid &&
        e.record_status == RecordStatusEnum.active) = [exp] →
      db.farms.filter (fun f =>
        f.farm_id == exp.farm_id && f.user_id == u.user_id) = [] →
      delete_expense u eid now db =
        .error ⟨403, "Access denied to this expense"⟩) ∧
    (∀ (fid : Nat) (db : DB) (farm : Farm),
      db.farms.filter (fun f => f.farm_id == fid) = [farm] →
      get_farm fid db = .ok farm) ∧
    (∀ (u : User) (nfc : String) (db : DB),
      db.crops.filter (fun c => c.nfc_code == nfc) = [] →
      get_crop u nfc db = .error ⟨404, "Crop not found"⟩) := by
  refine ⟨?_, ?_, ?_, ?_, ?_, ?_, ?_⟩
  · intro u nfc db crop hc hf
    simp [get_crop, get_crop_by_nfc_code, verify_farm_ownership, hc, hf,
      scalarOneOrNone, bind_ok_elim, bind_error_elim]
  · intro u nfc upd now db crop hc hf
    simp [update_crop, get_crop_by_nfc_code, verify_farm_ownership, hc,
      hf, scalarOneOrNone, bind_ok_elim, bind_error_elim]
  · intro u nfc now db crop hc hf
    simp [soft_delete_crop, get_crop_by_nfc_code, verify_farm_ownership, hc,
      hf, scalarOneOrNone, bind_ok_elim, bind_error_elim]
  · intro u fid now crash db farm hfarm hne
    simp [soft_delete_farm, hfarm, scalarOneOrNone, hne]
  · intro u eid now db exp he hf
    simp only [delete_expense, he, hf, scalarOneOrNone, bind_ok_elim,
      bind_error_elim]
    rfl
  · intro fid db farm hfarm
    simp [get_farm, hfarm, scalarOneOrNone]
  · intro u nfc db hc
    simp [get_crop, get_crop_by_nfc_code, hc, scalarOneOrNone, bind_ok_elim,
      bind_error_elim]

/-- C5 witness: user 2 GETs and updates crop A (farm owned by user 1) and
is refused both times; the farm GET returns user 1's farm without any
requester at all. -/
theorem C5_amended_witness :
    get_crop sampleUser2 "A" baseDB =
      .error ⟨403, "You are not authorized to access this crop."⟩ ∧
    update_crop sampleUser2 "A" ⟨none, none, none, none, none⟩ 99 baseDB =
      .error ⟨403, "You are not authorized to access this crop."⟩ ∧
    get_farm 1 baseDB = .ok sampleFarm1 :=
  ⟨C5_amended.1 sampleUser2 "A" baseDB sampleCropA (by decide) (by decide),
   C5_amended.2.1 sampleUser2 "A" ⟨none, none, none, none, none⟩ 99 baseDB
     sampleCropA (by decide) (by decide),
   C5_amended.2.2.2.2.2.1 1 baseDB sampleFarm1 (by decide)⟩

/-! ## Claim C4: bearer-token resolution on mutating operations -/

def dbNoUsers : DB := { baseDB with users := [] }

/-- C4 counterexample: create_daily_crop declares no authentication
dependency: a request with no bearer token - indeed against a database
with no users at all, so no token could possibly resolve - performs its
write (a CropDaily row appears) instead of failing with Unauthorized. -/
theorem C4_counterexample :
    dbNoUsers.users = [] ∧ dbNoUsers.dailies = [] ∧
    (create_daily_crop ⟨"A", CropGrowingStageEnum.growing, 1⟩ 1000
      dbNoUsers).map (fun p => p.1.dailies.length) = .ok 1 := by
  refine ⟨rfl, rfl, ?_⟩
  rfl

/-- C4 amended: every mutating endpoint except CropDaily create resolves
the bearer token before its handler runs and fails with 401 - performing
no write - on a missing, invalid or expired token; CropDaily create runs
with no token resolution or ownership check and performs its write. -/
theorem C4_amended :
    (∀ (tok : Option Token) (now : Nat) (users : List User) (e : HErr),
      get_current_user tok now users = .error e → e = credentials_exception) ∧
    (∀ (α : Type) (tok : Option Token) (now : Nat) (db : DB)
      (k : User → Except HErr α) (e : HErr),
      get_current_user tok now db.users = .error e →
      withAuth tok now db k = .error e) ∧
    (∀ (tok : Option Token) (now : Nat) (db : DB) (e : HErr)
      (req : CreateHarvest) (nfc : String) (hid : Nat) (upd : UpdateHarvest)
      (dupd : UpdateDailyCrop) (fid : Nat) (crash : Bool),
      get_current_user tok now db.users = .error e →
      create_harvest_endpoint tok req now db = .error e ∧
      update_harvest_endpoint tok nfc hid upd now db = .error e ∧
      soft_delete_harvest_endpoint tok hid now db = .error e ∧
      update_latest_daily_crop_endpoint tok nfc dupd now db = .error e ∧
      soft_delete_today_daily_crop_endpoint tok nfc now db = .error e ∧
      soft_delete_farm_endpoint tok fid now crash db = (.error e, db)) ∧
    (∀ (req : CreateDailyCrop) (now : Nat) (db : DB)
      (r : DB × CropDaily),
      create_daily_crop req now db = .ok r →
      r.1.dailies = db.dailies ++ [r.2]) := by
  have hauth : ∀ (α : Type) (tok : Option Token) (now : Nat) (db : DB)
      (k : User → Except HErr α) (e : HErr),
      get_current_user tok now db.users = .error e →
      withAuth tok now db k = .error e := by
    intro α tok now db k e h
    unfold withAuth
    rw [h]
  refine ⟨?_, hauth, ?_, ?_⟩
  · intro tok now users e h
    unfold get_current_user at h
    split at h
    · injection h with h; exact h.symm
    · split at h
      · injection h with h; exact h.symm
      · split at h
        · injection h with h; exact h.symm
        · split at h
          · injection h with h; exact h.symm
          · cases h
  · intro tok now db e req nfc hid upd dupd fid crash h
    refine ⟨hauth _ tok now db _ e h, hauth _ tok now db _ e h,
      hauth _ tok now db _ e h, hauth _ tok now db _ e h,
      hauth _ tok now db _ e h, ?_⟩
    unfold soft_delete_farm_endpoint
    rw [h]
  · intro req now db r h
    unfold create_daily_crop at h
    cases h1 : scalarOneOrNone (db.crops.filter (fun c =>
        c.nfc_code == req.nfc_code && c.crop_is_active)) with
    | error e => rw [h1] at h; cases h
    | ok o =>
      cases o with
      | none => rw [h1] at h; cases h
      | some crop =>
        rw [h1] at h
        cases h2 : scalarOneOrNone (db.dailies.filter (fun d =>
            d.nfc_code == req.nfc_code &&
            dateOf d.record_created_date == dateOf now &&
            d.crop_status == DailyCropStatusEnum.active)) with
        | error e => rw [h2] at h; cases h
        | ok o2 =>
          rw [h2] at h
          cases o2 with
          | none =>
            simp only [bind_ok_elim, Option.isSome_none, Bool.false_eq_true,
              if_false] at h
            cases h
            rfl
          | some d =>
            simp only [bind_ok_elim, Option.isSome_some, if_true] at h
            cases h

/-- C4 witness: with no token at all the harvest-create endpoint answers
401 and returns no new state, while the daily-crop create endpoint writes
its row. -/
theorem C4_amended_witness :
    create_harvest_endpoint none
      ⟨"A", 5, HarvestUnitEnum.kg, none, HarvestQualityEnum.good, 2,
       5 * secsPerDay⟩ 77 baseDB = .error credentials_exception ∧
    (create_daily_crop ⟨"A", CropGrowingStageEnum.growing, 1⟩ 1000
      dbNoUsers).map (fun p => p.1.dailies) =
      .ok (dbNoUsers.dailies ++
        [⟨1, 1, "A", CropGrowingStageEnum.growing, 1,
          DailyCropStatusEnum.active, 1000, none⟩]) := by
  constructor
  · exact (C4_amended.2.2.1 none 77 baseDB credentials_exception
      ⟨"A", 5, HarvestUnitEnum.kg, none, HarvestQualityEnum.good, 2,
       5 * secsPerDay⟩ "A" 0 ⟨none, none, none, none, none, none⟩
      ⟨none, none⟩ 0 false rfl).1
  · rfl

/-! ## Claim C7: login audit row and last_login_date -/

/-- Test double for passlib's verify: the stored credential of the sample
users equals what the sample requests send. -/
def sampleVerify : String → String → Bool := fun p h => p == h

/-- C7 counterexample: login_user commits the Login audit row before it
updates last_login_date; when the second write fails the operation errors,
yet the audit row has already persisted - the durable state differs from
the initial one, refuting "if either write fails ... neither write
persists". -/
theorem C7_counterexample :
    isOkE (login_user sampleVerify ⟨"a@x", "hash1"⟩ "ip" 50 60 true
      baseDB).1 = false ∧
    (login_user sampleVerify ⟨"a@x", "hash1"⟩ "ip" 50 60 true baseDB).2 ≠
      baseDB ∧
    (login_user sampleVerify ⟨"a@x", "hash1"⟩ "ip" 50 60 true
      baseDB).2.logins.length = 1 ∧
    baseDB.logins.length = 0 := by
  decide

/-- C7 amended: a successful login appends exactly one Login audit row and
sets that user's last_login_date to the row's timestamp, but through two
separate commits rather than one atomic transaction: the audit-row commit
comes first, so a failure of the second write leaves the audit row alone
durable while the operation reports an error. -/
theorem C7_amended :
    ∀ (verify : String → String → Bool) (login_data : LoginCreate)
      (ip : String) (now ttl : Nat) (db : DB) (user : User),
      (db.users.filter (fun u => u.email == login_data.email)).head? =
        some user →
      verify login_data.password user.password = true →
      ((login_user verify login_data ip now ttl false db).2.logins =
        db.logins ++
          [⟨nextId (db.logins.map (·.login_id)), user.user_id, now, ip⟩] ∧
       isOkE (login_user verify login_data ip now ttl false db).1 = true ∧
       (∀ u' ∈ (login_user verify login_data ip now ttl false db).2.users,
         u'.user_id = user.user_id → u'.last_login_date = some now)) ∧
      ((login_user verify login_data ip now ttl true db).2 =
        { db with logins := db.logins ++
          [⟨nextId (db.logins.map (·.login_id)), user.user_id, now, ip⟩] } ∧
       isOkE (login_user verify login_data ip now ttl true db).1 = false) := by
  intro verify login_data ip now ttl db user hhead hv
  have hfalse : login_user verify login_data ip now ttl false db =
      (.ok (create_access_token user.user_id now ttl, user.user_id),
       { db with
         logins := db.logins ++
           [⟨nextId (db.logins.map (·.login_id)), user.user_id, now, ip⟩],
         users := db.users.map (fun u =>
           if u.user_id == user.user_id then
             { u with last_login_date := some now }
           else u) }) := by
    simp [login_user, hhead, hv]
  have htrue : login_user verify login_data ip now ttl true db =
      (.error ⟨500, "database failure"⟩,
       { db with logins := db.logins ++
           [⟨nextId (db.logins.map (·.login_id)), user.user_id, now,
             ip⟩] }) := by
    simp [login_user, hhead, hv]
  rw [hfalse, htrue]
  refine ⟨⟨rfl, rfl, ?_⟩, rfl, rfl⟩
  intro u' hu' hid
  rcases List.mem_map.mp hu' with ⟨x, hx, hxe⟩
  by_cases hb : (x.user_id == user.user_id) = true
  · rw [if_pos hb] at hxe
    rw [← hxe]
  · rw [if_neg hb] at hxe
    rw [← hxe] at hid
    exact absurd (beq_iff_eq.mpr hid) (by simpa using hb)

/-- C7 witness: a concrete successful login against the sample database,
with and without the simulated failure of the second commit. -/
theorem C7_amended_witness :
    (login_user sampleVerify ⟨"a@x", "hash1"⟩ "ip" 50 60 false
      baseDB).2.logins =
      baseDB.logins ++
        [⟨nextId (baseDB.logins.map (·.login_id)), sampleUser1.user_id, 50,
          "ip"⟩] ∧
    (login_user sampleVerify ⟨"a@x", "hash1"⟩ "ip" 50 60 true baseDB).2 =
      { baseDB with logins := baseDB.logins ++
        [⟨nextId (baseDB.logins.map (·.login_id)), sampleUser1.user_id, 50,
          "ip"⟩] } := by
  have h := C7_amended sampleVerify ⟨"a@x", "hash1"⟩ "ip" 50 60 baseDB
    sampleUser1 (by decide) (by decide)
  exact ⟨h.1.1, h.2.1⟩

/-! ## The harvest routes never commit: shared consequences of the
missing Harvest.farm_id column -/

theorem scalarOneOrNone_error_elim {α : Type} {l : List α} {e : HErr}
    (h : scalarOneOrNone l = .error e) :
    e = ⟨500, "Multiple rows were found when one or none was required"⟩ := by
  unfold scalarOneOrNone at h
  cases l with
  | nil => cases h
  | cons a t =>
    cases t with
    | nil => cases h
    | cons b t2 =>
      injection h with h2
      exact h2.symm

/-- Every path of the create try-block ends in a raise: the validation
raises of steps 1-4, or step 5's constructor TypeError. -/
theorem create_inner_never_ok (u : User) (req : CreateHarvest) (now : Nat)
    (db : DB) : isOkE (create_harvest_from_nfc_inner u req now db) = false := by
  unfold create_harvest_from_nfc_inner
  cases h1 : scalarOneOrNone (db.crops.filter (fun c =>
      c.nfc_code == req.nfc_code)) with
  | error e => rfl
  | ok o =>
    cases o with
    | none => rfl
    | some crop =>
      simp only [bind_ok_elim]
      split
      · rfl
      · cases h2 : scalarOneOrNone (db.farms.filter (fun f =>
            f.farm_id == crop.farm_id &&
            f.user_id == u.user_id)) with
        | error e => rfl
        | ok o2 =>
          cases o2 with
          | none => rfl
          | some farm =>
            simp only [bind_ok_elim]
            cases h3 : scalarOneOrNone (db.harvests.filter (fun h =>
                h.nfc_code == req.nfc_code &&
                h.harvest_date ==
                  midnightOf (dateOf req.harvest_date) &&
                h.record_status == RecordStatusEnum.active)) with
            | error e => rfl
            | ok ex =>
              simp only [bind_ok_elim]
              split
              · rfl
              · split
                · rfl
                · rfl

/-- The except clause turns whatever was raised into a 500, so every
create request is answered 500 and no create ever commits. -/
theorem create_harvest_always_500 (u : User) (req : CreateHarvest)
    (now : Nat) (db : DB) :
    statusOf (create_harvest_from_nfc u req now db) = some 500 := by
  have h := create_inner_never_ok u req now db
  unfold create_harvest_from_nfc
  cases hres : create_harvest_from_nfc_inner u req now db with
  | ok r => rw [hres] at h; simp [isOkE] at h
  | error e => rfl

/-- Every update request is answered 404, 403 or 500 (the AttributeError
at the step-3 query): never 200, never 422. -/
theorem update_harvest_status (u : User) (nfc : String) (hid : Nat)
    (upd : UpdateHarvest) (now : Nat) (db : DB) :
    statusOf (update_harvest u nfc hid upd now db) = some 404 ∨
    statusOf (update_harvest u nfc hid upd now db) = some 403 ∨
    statusOf (update_harvest u nfc hid upd now db) = some 500 := by
  unfold update_harvest
  cases h1 : scalarOneOrNone (db.crops.filter (fun c =>
      c.nfc_code == nfc && c.crop_status == CropStatusEnum.active)) with
  | error e =>
    right; right
    have he := scalarOneOrNone_error_elim h1
    subst he
    rfl
  | ok o =>
    cases o with
    | none => left; rfl
    | some crop =>
      simp only [bind_ok_elim]
      cases h2 : scalarOneOrNone (db.farms.filter (fun f =>
          f.farm_id == crop.farm_id && f.user_id == u.user_id)) with
      | error e =>
        right; right
        have he := scalarOneOrNone_error_elim h2
        subst he
        rfl
      | ok o2 =>
        cases o2 with
        | none => right; left; rfl
        | some farm =>
          right; right
          rfl

theorem update_harvest_never_ok (u : User) (nfc : String) (hid : Nat)
    (upd : UpdateHarvest) (now : Nat) (db : DB) :
    isOkE (update_harvest u nfc hid upd now db) = false := by
  rcases update_harvest_status u nfc hid upd now db with h | h | h <;>
  · cases hres : update_harvest u nfc hid upd now db with
    | ok r => rw [hres] at h; simp [statusOf] at h
    | error e => rfl

/-- Soft delete either fails (404, or the step-3 AttributeError as a 500)
or takes the step-2 already-deleted early return, which reports success
with the database unchanged: no delete ever writes. -/
theorem soft_delete_harvest_no_write (u : User) (hid now : Nat) (db : DB) :
    isOkE (soft_delete_harvest u hid now db) = false ∨
    soft_delete_harvest u hid now db = .ok (db, none) := by
  unfold soft_delete_harvest
  cases h1 : scalarOneOrNone (db.harvests.filter (fun h =>
      h.harvest_id == hid)) with
  | error e => left; rfl
  | ok o =>
    cases o with
    | none => left; rfl
    | some hrec =>
      simp only [bind_ok_elim]
      split
      · right; rfl
      · left; rfl

/-! ## Claim C9: estimated_kg validation for the discrete unit kind -/

def c9reqZero : CreateHarvest :=
  ⟨"A", 5, HarvestUnitEnum.unit, some 0, HarvestQualityEnum.good, 2,
   5 * secsPerDay + 3600⟩

def c9reqNone : CreateHarvest :=
  ⟨"A", 5, HarvestUnitEnum.unit, none, HarvestQualityEnum.good, 2,
   5 * secsPerDay + 3600⟩

/-- C9: the claimed ValidationError can never be observed.  Update's 422
check sits below the step-3 query that raises AttributeError, so no
update request is ever answered 422; create checks only a MISSING
estimated_kg (a 400 the catch-all rewraps) and then every create -
zero-valued estimated_kg included - dies in the constructor TypeError, so
create is answered 500 regardless of the discrete-unit rule. -/
theorem C9_code_bug :
    (∀ (u : User) (nfc : String) (hid : Nat) (upd : UpdateHarvest)
       (now : Nat) (db : DB),
      (statusOf (update_harvest u nfc hid upd now db) == some 422) =
        false) ∧
    (∀ (u : User) (req : CreateHarvest) (now : Nat) (db : DB),
      (statusOf (create_harvest_from_nfc u req now db) == some 422) =
        false) ∧
    statusOf (create_harvest_from_nfc_inner sampleUser1 c9reqNone 99 baseDB)
      = some 400 ∧
    statusOf (create_harvest_from_nfc_inner sampleUser1 c9reqZero 99 baseDB)
      = some 500 ∧
    statusOf (create_harvest_from_nfc sampleUser1 c9reqZero 99 baseDB)
      = some 500 := by
  refine ⟨?_, ?_, by decide, by decide, by decide⟩
  · intro u nfc hid upd now db
    rcases update_harvest_status u nfc hid upd now db with h | h | h <;>
      rw [h] <;> rfl
  · intro u req now db
    rw [create_harvest_always_500 u req now db]
    rfl

/-! ## Claim C3: farm soft-delete cascade -/

def c3expect1 : FarmExpect :=
  ⟨1, 1, "F1", 10, 5, 7, FarmExpectationEnum.active, 0, none⟩

def c3expect2 : FarmExpect :=
  ⟨2, 1, "F1", 11, 6, 8, FarmExpectationEnum.active, 1, none⟩

def c3dbTwo : DB := { baseDB with farm_expects := [c3expect1, c3expect2] }

def c3dbOne : DB := { baseDB with farm_expects := [c3expect1] }

/-- C3 counterexample: FarmExpect is append-only, so a farm accumulates
several expectation rows; but soft_delete_farm reads them with
scalar_one_or_none, which raises MultipleResultsFound on two rows.  For a
farm with two expectation rows the delete fails with a 500 and neither the
farm flags nor any expectation are written - the claim requires the farm
to be terminated and every FarmExpect moved to deleted. -/
theorem C3_counterexample :
    soft_delete_farm sampleUser1 1 99 false c3dbTwo =
      (.error ⟨500, "Multiple rows were found when one or none was required"⟩,
       c3dbTwo) ∧
    (∀ f ∈ c3dbTwo.farms, f.farm_id = 1 →
      f.farm_status ≠ FarmStatusEnum.terminated) ∧
    (∀ e ∈ c3dbTwo.farm_expects,
      e.record_status ≠ FarmExpectationEnum.deleted) := by
  decide

/-- C3 amended: for a farm the requesting user owns with at most one
associated FarmExpect row, soft-delete sets farm_is_active to false and
farm_status to terminated, moves that FarmExpect row (when present) to
record_status deleted with the same record_updated_date, all durable at
one commit - a failure at the commit leaves the database unchanged.  With
two or more FarmExpect rows the lookup raises, the operation fails and
nothing persists. -/
theorem C3_amended :
    ∀ (u : User) (fid now : Nat) (db : DB) (farm : Farm),
      db.farms.filter (fun f => f.farm_id == fid) = [farm] →
      farm.user_id = u.user_id →
      ((db.farm_expects.filter (fun e => e.farm_id == fid)).length ≤ 1 →
        ∃ final,
          soft_delete_farm u fid now false db = (.ok final, final) ∧
          (∀ f ∈ final.farms, f.farm_id = fid →
            f.farm_is_active = false ∧
            f.farm_status = FarmStatusEnum.terminated ∧
            f.record_updated_date = some now) ∧
          (∀ e ∈ final.farm_expects, e.farm_id = fid →
            e.record_status = FarmExpectationEnum.deleted ∧
            e.record_updated_date = some now) ∧
          (soft_delete_farm u fid now true db).2 = db) ∧
      (2 ≤ (db.farm_expects.filter (fun e => e.farm_id == fid)).length →
        isOkE (soft_delete_farm u fid now false db).1 = false ∧
        (soft_delete_farm u fid now false db).2 = db) := by
  intro u fid now db farm hfarm hown
  have hred : ∀ crash : Bool,
      soft_delete_farm u fid now crash db =
      (let farms' := db.farms.map (fun f =>
        if f.farm_id == fid then
          { f with farm_is_active := false,
                   farm_status := FarmStatusEnum.terminated,
                   record_updated_date := some now }
        else f)
       let pending1 : DB := { db with farms := farms' }
       match scalarOneOrNone (db.farm_expects.filter (fun e =>
           e.farm_id == fid)) with
       | .error e => (.error e, db)
       | .ok none =>
         if crash then (.error ⟨500, "database failure"⟩, db)
         else (.ok pending1, pending1)
       | .ok (some farm_expect) =>
         let pending2 : DB := { pending1 with
           farm_expects := pending1.farm_expects.map (fun e =>
             if e.farm_expect_id == farm_expect.farm_expect_id then
               { e with record_status := FarmExpectationEnum.deleted,
                        record_updated_date := some now }
             else e) }
         if crash then (.error ⟨500, "database failure"⟩, db)
         else (.ok pending2, pending2)) := by
    intro crash
    unfold soft_delete_farm
    rw [hfarm]
    simp only [scalarOneOrNone]
    rw [if_neg (by simp [hown])]
  constructor
  · intro hlen
    rcases hfe : db.farm_expects.filter (fun e => e.farm_id == fid) with
      _ | ⟨fe, rest⟩
    · -- no expectation row
      refine ⟨{ db with farms := db.farms.map (fun f =>
          if f.farm_id == fid then
            { f with farm_is_active := false,
                     farm_status := FarmStatusEnum.terminated,
                     record_updated_date := some now }
          else f) }, ?_, ?_, ?_, ?_⟩
      · rw [hred false]
        simp only [hfe, scalarOneOrNone]
        rfl
      · intro f hf hfid
        rcases List.mem_map.mp hf with ⟨x, hx, hxe⟩
        by_cases hb : (x.farm_id == fid) = true
        · rw [if_pos hb] at hxe
          rw [← hxe]
          exact ⟨rfl, rfl, rfl⟩
        · rw [if_neg hb] at hxe
          rw [← hxe] at hfid
          exact absurd (beq_iff_eq.mpr hfid) (by simpa using hb)
      · intro e he hfid
        exfalso
        have hmem : e ∈ db.farm_expects.filter (fun e => e.farm_id == fid) :=
          List.mem_filter.mpr ⟨he, beq_iff_eq.mpr hfid⟩
        rw [hfe] at hmem
        cases hmem
      · rw [hred true]
        simp only [hfe, scalarOneOrNone]
        rfl
    · -- exactly one expectation row (two or more contradict hlen)
      cases rest with
      | cons fe2 rest2 => simp [hfe] at hlen
      | nil =>
        refine ⟨{ db with
            farms := db.farms.map (fun f =>
              if f.farm_id == fid then
                { f with farm_is_active := false,
                         farm_status := FarmStatusEnum.terminated,
                         record_updated_date := some now }
              else f),
            farm_expects := db.farm_expects.map (fun e =>
              if e.farm_expect_id == fe.farm_expect_id then
                { e with record_status := FarmExpectationEnum.deleted,
                         record_updated_date := some now }
              else e) }, ?_, ?_, ?_, ?_⟩
        · rw [hred false]
          simp only [hfe, scalarOneOrNone]
          rfl
        · intro f hf hfid
          rcases List.mem_map.mp hf with ⟨x, hx, hxe⟩
          by_cases hb : (x.farm_id == fid) = true
          · rw [if_pos hb] at hxe
            rw [← hxe]
            exact ⟨rfl, rfl, rfl⟩
          · rw [if_neg hb] at hxe
            rw [← hxe] at hfid
            exact absurd (beq_iff_eq.mpr hfid) (by simpa using hb)
        · intro e he hfid
          rcases List.mem_map.mp he with ⟨x, hx, hxe⟩
          by_cases hb : (x.farm_expect_id == fe.farm_expect_id) = true
          · rw [if_pos hb] at hxe
            rw [← hxe]
            exact ⟨rfl, rfl⟩
          · rw [if_neg hb] at hxe
            exfalso
            have hxf : x ∈ db.farm_expects.filter
                (fun e => e.farm_id == fid) := by
              refine List.mem_filter.mpr ⟨hx, ?_⟩
              rw [← hxe] at hfid
              exact beq_iff_eq.mpr hfid
            rw [hfe] at hxf
            have hx_fe : x = fe := by simpa using hxf
            rw [hx_fe] at hb
            simp at hb
        · rw [hred true]
          simp only [hfe, scalarOneOrNone]
          rfl
  · intro hlen
    rcases hfe : db.farm_expects.filter (fun e => e.farm_id == fid) with
      _ | ⟨fe, rest⟩
    · rw [hfe] at hlen; simp at hlen
    · cases rest with
      | nil => rw [hfe] at hlen; simp at hlen
      | cons fe2 rest2 =>
        constructor
        · rw [hred false]
          simp only [hfe, scalarOneOrNone]
          rfl
        · rw [hred false]
          simp only [hfe, scalarOneOrNone]

/-- C3 witness: user 1 soft-deletes farm 1 carrying one expectation row. -/
theorem C3_amended_witness :
    ∃ final,
      soft_delete_farm sampleUser1 1 99 false c3dbOne = (.ok final, final) ∧
      (∀ f ∈ final.farms, f.farm_id = 1 →
        f.farm_is_active = false ∧
        f.farm_status = FarmStatusEnum.terminated ∧
        f.record_updated_date = some 99) ∧
      (∀ e ∈ final.farm_expects, e.farm_id = 1 →
        e.record_status = FarmExpectationEnum.deleted ∧
        e.record_updated_date = some 99) ∧
      (soft_delete_farm sampleUser1 1 99 true c3dbOne).2 = c3dbOne :=
  (C3_amended sampleUser1 1 99 c3dbOne sampleFarm1 (by decide) (by decide)).1
    (by decide)

/-! ## Claim C8: PlantMethod creator restriction -/

def sampleCropB : CropDtl :=
  { crop_id := 2, farm_id := 2, nfc_code := "B", farm_abbrev := "F2",
    crop_type := "tea", crop_subtype := "green", plantation_date := 0,
    method_id := 2, crop_yrs := 0, crop_stage := none,
    last_harvest_date := none, record_created_date := 0,
    crop_modified_date := none, crop_status := CropStatusEnum.active,
    crop_is_active := true }

def c8db : DB := { baseDB with crops := [sampleCropA, sampleCropB] }

def c8req : CreateCrop := ⟨"C", "F2", "tea", "s", 0, 1, none, none⟩

/-- C8 counterexample: method 1 was created by user 1, yet user 2's crop
create attaches it and succeeds - create_crop performs no check of the
method's creator, where the claim requires Forbidden. -/
theorem C8_counterexample :
    sampleMethodPriv.plant_method_id = 1 ∧
    sampleMethodPriv.record_created_by = some 1 ∧
    sampleUser2.user_id = 2 ∧
    (create_crop sampleUser2 c8req 99 baseDB).map (fun p => p.2.method_id) =
      .ok 1 := by
  decide

/-- C8 amended: crop update enforces the rule - attaching a method with a
non-null creator fails with Forbidden unless the requester is that
creator, and global (null-creator) methods attach for anyone - but crop
create checks nothing: it attaches whatever method_id the request names,
another user's private method included. -/
theorem C8_amended :
    (∀ (u : User) (nfc : String) (upd : UpdateCropM) (now : Nat) (db : DB)
       (crop : CropDtl) (farm : Farm) (method : PlantMethod) (mid v : Nat),
      upd.other_method = none → upd.method_id = some mid →
      db.crops.filter (fun c => c.nfc_code == nfc) = [crop] →
      db.farms.filter (fun f =>
        f.farm_id == crop.farm_id && f.user_id == u.user_id) = [farm] →
      db.methods.filter (fun m => m.plant_method_id == mid) = [method] →
      method.record_created_by = some v → v ≠ u.user_id →
      update_crop u nfc upd now db =
        .error ⟨403, "You are not authorized to use this method."⟩) ∧
    (∀ (u : User) (nfc : String) (upd : UpdateCropM) (now : Nat) (db : DB)
       (crop : CropDtl) (farm : Farm) (method : PlantMethod) (mid : Nat),
      upd.other_method = none → upd.method_id = some mid →
      db.crops.filter (fun c => c.nfc_code == nfc) = [crop] →
      db.farms.filter (fun f =>
        f.farm_id == crop.farm_id && f.user_id == u.user_id) = [farm] →
      db.methods.filter (fun m => m.plant_method_id == mid) = [method] →
      (method.record_created_by = none ∨
       method.record_created_by = some u.user_id) →
      isOkE (update_crop u nfc upd now db) = true) ∧
    (∀ (u : User) (req : CreateCrop) (now : Nat) (db : DB) (farm : Farm),
      req.other_method = none →
      db.crops.filter (fun c => c.nfc_code == req.nfc_code) = [] →
      db.farms.filter (fun f =>
        f.farm_abbrev == req.farm_abbrev && f.user_id == u.user_id &&
        f.farm_is_active) = [farm] →
      (create_crop u req now db).map (fun p => p.2.method_id) =
        .ok req.method_id) := by
  refine ⟨?_, ?_, ?_⟩
  · intro u nfc upd now db crop farm method mid v ho hmid hc hf hm hcb hv
    unfold update_crop
    simp only [get_crop_by_nfc_code, verify_farm_ownership, hc, hf, hm, ho,
      hmid, scalarOneOrNone, bind_ok_elim, bind_error_elim]
    have hcond : method.record_created_by ≠ none ∧
        method.record_created_by ≠ some u.user_id := by
      rw [hcb]
      exact ⟨by simp, by simp [hv]⟩
    rw [if_pos hcond]
    rfl
  · intro u nfc upd now db crop farm method mid ho hmid hc hf hm hcb
    unfold update_crop
    simp only [get_crop_by_nfc_code, verify_farm_ownership, hc, hf, hm, ho,
      hmid, scalarOneOrNone, bind_ok_elim, bind_error_elim]
    have hcond : ¬ (method.record_created_by ≠ none ∧
        method.record_created_by ≠ some u.user_id) := by
      rcases hcb with hcb | hcb <;> simp [hcb]
    rw [if_neg hcond]
    rfl
  · intro u req now db farm ho hc hf
    have hfmem : farm ∈ db.farms.filter (fun f =>
        f.farm_abbrev == req.farm_abbrev && f.user_id == u.user_id &&
        f.farm_is_active) := by
      rw [hf]; exact List.mem_singleton.mpr rfl
    have hfown : farm.user_id = u.user_id := by
      have hp := (List.mem_filter.mp hfmem).2
      have := (Bool.and_eq_true _ _).mp ((Bool.and_eq_true _ _).mp hp).1
      exact beq_iff_eq.mp this.2
    unfold create_crop
    simp only [hc, hf, ho, scalarOneOrNone, bind_ok_elim, bind_error_elim,
      bind_pure_elim, hfown, Option.isSome_none, Bool.false_eq_true,
      if_false, ne_eq, eq_self_iff_true, not_true_eq_false]
    rfl

/-- C8 witness: user 2 may not attach user 1's private method on update
but may attach the global one; and user 2's crop create attaches user 1's
private method unchecked. -/
theorem C8_amended_witness :
    update_crop sampleUser2 "B" ⟨some 1, none, none, none, none⟩ 99 c8db =
      .error ⟨403, "You are not authorized to use this method."⟩ ∧
    isOkE (update_crop sampleUser2 "B" ⟨some 2, none, none, none, none⟩ 99
      c8db) = true ∧
    (create_crop sampleUser2 c8req 99 baseDB).map (fun p => p.2.method_id) =
      .ok c8req.method_id :=
  ⟨C8_amended.1 sampleUser2 "B" ⟨some 1, none, none, none, none⟩ 99 c8db
      sampleCropB sampleFarm2 sampleMethodPriv 1 1 rfl rfl (by decide)
      (by decide) (by decide) rfl (by decide),
   C8_amended.2.1 sampleUser2 "B" ⟨some 2, none, none, none, none⟩ 99 c8db
      sampleCropB sampleFarm2 sampleMethodGlobal 2 rfl rfl (by decide)
      (by decide) (by decide) (Or.inl rfl),
   C8_amended.2.2 sampleUser2 c8req 99 baseDB sampleFarm2 rfl (by decide)
      (by decide)⟩

/-! ## Claim C6: same-day harvest uniqueness -/

def c6hvMid : Harvest :=
  ⟨1, 1, "A", 5, HarvestUnitEnum.kg, none, HarvestQualityEnum.good, 2,
   5 * secsPerDay, RecordStatusEnum.active, 0, none⟩

def c6hvNoon : Harvest :=
  ⟨1, 1, "A", 5, HarvestUnitEnum.kg, none, HarvestQualityEnum.good, 2,
   5 * secsPerDay + 7200, RecordStatusEnum.active, 0, none⟩

def c6dbMid : DB := { baseDB with harvests := [c6hvMid] }

def c6dbNoon : DB := { baseDB with harvests := [c6hvNoon] }

def c6reqSame : CreateHarvest :=
  ⟨"A", 6, HarvestUnitEnum.kg, none, HarvestQualityEnum.good, 3,
   5 * secsPerDay + 3600⟩

def c6reqDiff : CreateHarvest :=
  ⟨"A", 6, HarvestUnitEnum.kg, none, HarvestQualityEnum.good, 3,
   9 * secsPerDay + 3600⟩

/-- C6: the claim states the intended behaviour; the code never exhibits
it.  The duplicate check compares the stored harvest_date timestamp
against the request day's midnight timestamp, so only rows stored at
exactly 00:00 trigger it, and when it does fire the raise is a 400 the
catch-all rewraps as a 500 - never a 409 Conflict.  A same-day request
past a non-midnight stored row slips the check and, like every other
create (a different-day create included), dies in the constructor
TypeError: no create is ever answered Conflict and none ever succeeds. -/
theorem C6_code_bug :
    statusOf (create_harvest_from_nfc_inner sampleUser1 c6reqSame 13 c6dbMid)
      = some 400 ∧
    statusOf (create_harvest_from_nfc sampleUser1 c6reqSame 13 c6dbMid)
      = some 500 ∧
    statusOf (create_harvest_from_nfc_inner sampleUser1 c6reqSame 13 c6dbNoon)
      = some 500 ∧
    statusOf (create_harvest_from_nfc_inner sampleUser1 c6reqDiff 13 baseDB)
      = some 500 ∧
    (∀ (u : User) (req : CreateHarvest) (now : Nat) (db : DB),
      isOkE (create_harvest_from_nfc u req now db) = false ∧
      (statusOf (create_harvest_from_nfc u req now db) == some 409) =
        false) := by
  refine ⟨by decide, by decide, by decide, by decide, ?_⟩
  intro u req now db
  have h := create_harvest_always_500 u req now db
  constructor
  · cases hres : create_harvest_from_nfc u req now db with
    | ok r => rw [hres] at h; simp [statusOf] at h
    | error e => rfl
  · rw [h]
    rfl

/-! ## Claim C10: last-reference soft delete of a global method -/

/-- C10: soft-deleting a crop whose method no other active crop references
soft-deletes the PlantMethod - with no creator check, so a global
(null-creator) method included - after which the method appears in no
user's available-methods listing. -/
theorem C10_theorem :
    ∀ (u : User) (nfc : String) (now : Nat) (db : DB) (crop : CropDtl)
      (farm : Farm) (m : PlantMethod),
      db.crops.filter (fun c => c.nfc_code == nfc) = [crop] →
      db.farms.filter (fun f =>
        f.farm_id == crop.farm_id && f.user_id == u.user_id) = [farm] →
      crop.method_id ≠ 0 →
      db.methods.filter (fun x =>
        x.plant_method_id == crop.method_id) = [m] →
      m.record_created_by = none →
      (∀ c ∈ db.crops, c.method_id = crop.method_id →
        c.crop_is_active = true → c.nfc_code = nfc) →
      ∃ db', soft_delete_crop u nfc now db = .ok db' ∧
        (∀ m' ∈ db'.methods, m'.plant_method_id = crop.method_id →
          m'.record_status = MethodStatusEnum.deleted) ∧
        (∀ (u' : User), ∀ m' ∈ get_available_methods u' db',
          m'.plant_method_id ≠ crop.method_id) := by
  intro u nfc now db crop farm m hc hf hmid0 hm hglobal hother
  have hcmem : crop ∈ db.crops.filter (fun c => c.nfc_code == nfc) := by
    rw [hc]; exact List.mem_singleton.mpr rfl
  have hcnfc : crop.nfc_code = nfc :=
    beq_iff_eq.mp (List.mem_filter.mp hcmem).2
  have hoc : (db.crops.map (fun c =>
      if c.crop_id == crop.crop_id then
        { c with crop_is_active := false,
                 crop_status := CropStatusEnum.terminated,
                 crop_modified_date := some now }
      else c)).filter (fun c =>
        c.method_id == crop.method_id && c.crop_is_active &&
        c.nfc_code != nfc) = [] := by
    rw [List.filter_eq_nil_iff]
    intro x hx
    rcases List.mem_map.mp hx with ⟨y, hy, hye⟩
    by_cases hb : (y.crop_id == crop.crop_id) = true
    · rw [if_pos hb] at hye
      rw [← hye]
      simp
    · rw [if_neg hb] at hye
      rw [← hye]
      intro hp
      have h1 := (Bool.and_eq_true _ _).mp hp
      have h2 := (Bool.and_eq_true _ _).mp h1.1
      have hmidy : y.method_id = crop.method_id := beq_iff_eq.mp h2.1
      have hacty : y.crop_is_active = true := h2.2
      have hnfcy : y.nfc_code = nfc := hother y hy hmidy hacty
      rw [hnfcy] at h1
      simp at h1
  have hrun : soft_delete_crop u nfc now db = .ok
      { db with
        crops := db.crops.map (fun c =>
          if c.crop_id == crop.crop_id then
            { c with crop_is_active := false,
                     crop_status := CropStatusEnum.terminated,
                     crop_modified_date := some now }
          else c),
        methods := db.methods.map (fun x =>
          if x.plant_method_id == crop.method_id then
            { x with record_status := MethodStatusEnum.deleted,
                     record_updated_date := some now }
          else x) } := by
    unfold soft_delete_crop
    simp only [get_crop_by_nfc_code, verify_farm_ownership, hc, hf,
      scalarOneOrNone, bind_ok_elim, bind_error_elim, bind_pure_elim]
    rw [if_pos hmid0, hoc]
    simp only [List.isEmpty_nil, if_true, hm, scalarOneOrNone]
    rfl
  refine ⟨_, hrun, ?_, ?_⟩
  · intro m' hm' hid
    rcases List.mem_map.mp hm' with ⟨x, hx, hxe⟩
    by_cases hb : (x.plant_method_id == crop.method_id) = true
    · rw [if_pos hb] at hxe
      rw [← hxe]
    · rw [if_neg hb] at hxe
      rw [← hxe] at hid
      exact absurd (beq_iff_eq.mpr hid) (by simpa using hb)
  · intro u' m' hm' hid
    have hmem2 : m' ∈ (db.methods.map (fun x =>
        if x.plant_method_id == crop.method_id then
          { x with record_status := MethodStatusEnum.deleted,
                   record_updated_date := some now }
        else x)).filter (fun x =>
          x.record_status == MethodStatusEnum.active &&
          (x.record_created_by == none ||
           x.record_created_by == some u'.user_id)) := by
      have := hm'
      unfold get_available_methods at this
      exact (List.mem_insertionSort methodNameLE).mp this
    have hact : m'.record_status = MethodStatusEnum.active := by
      have hp := (List.mem_filter.mp hmem2).2
      exact beq_iff_eq.mp ((Bool.and_eq_true _ _).mp hp).1
    rcases List.mem_map.mp (List.mem_filter.mp hmem2).1 with ⟨x, hx, hxe⟩
    by_cases hb : (x.plant_method_id == crop.method_id) = true
    · rw [if_pos hb] at hxe
      rw [← hxe] at hact
      cases hact
    · rw [if_neg hb] at hxe
      rw [← hxe] at hid
      exact absurd (beq_iff_eq.mpr hid) (by simpa using hb)

/-- C10 witness: deleting crop A (the only crop, referencing the global
method 2) soft-deletes that method and removes it from every listing. -/
theorem C10_theorem_witness :
    ∃ db', soft_delete_crop sampleUser1 "A" 99 baseDB = .ok db' ∧
      (∀ m' ∈ db'.methods, m'.plant_method_id = sampleCropA.method_id →
        m'.record_status = MethodStatusEnum.deleted) ∧
      (∀ (u' : User), ∀ m' ∈ get_available_methods u' db',
        m'.plant_method_id ≠ sampleCropA.method_id) :=
  C10_theorem sampleUser1 "A" 99 baseDB sampleCropA sampleFarm1
    sampleMethodGlobal (by decide) (by decide) (by decide) (by decide)
    (by decide) (by decide)

/-! ## Claim C1: last_harvest_date invariant -/

/-- C1: the claim quantifies over committed harvest create, update and
soft-delete sequences, but the missing Harvest.farm_id column means no
such commit exists: every create is answered 500 by the constructor
TypeError, every update fails (404, 403, or the step-3 AttributeError as
a 500) before any write, and soft delete succeeds only as the
already-deleted no-op that returns the state unchanged.  The invariant is
maintained only vacuously; the claimed flows cannot occur. -/
theorem C1_code_bug :
    (∀ (u : User) (req : CreateHarvest) (now : Nat) (db : DB),
      statusOf (create_harvest_from_nfc u req now db) = some 500) ∧
    (∀ (u : User) (nfc : String) (hid : Nat) (upd : UpdateHarvest)
       (now : Nat) (db : DB),
      isOkE (update_harvest u nfc hid upd now db) = false) ∧
    (∀ (u : User) (hid now : Nat) (db : DB),
      isOkE (soft_delete_harvest u hid now db) = false ∨
      soft_delete_harvest u hid now db = .ok (db, none)) :=
  ⟨create_harvest_always_500, update_harvest_never_ok,
   soft_delete_harvest_no_write⟩

theorem pure_eq_ok {α : Type} (x : α) : (pure x : Except HErr α) = .ok x :=
  rfl

/-! ## Claim C2: crop_stage invariant -/

theorem sortDailiesDesc_mem {l : List CropDaily} {x : CropDaily} :
    x ∈ sortDailiesDesc l ↔ x ∈ l :=
  List.mem_insertionSort dailyCreatedGE

theorem sortDailiesDesc_head_max {l : List CropDaily} {x : CropDaily}
    (hx : (sortDailiesDesc l).head? = some x) :
    x ∈ l ∧ ∀ y ∈ l, y.record_created_date ≤ x.record_created_date :=
  insertionSort_head_max dailyCreatedGE hx

theorem sortDailiesDesc_eq_nil_iff {l : List CropDaily} :
    sortDailiesDesc l = [] ↔ l = [] :=
  insertionSort_eq_nil_iff dailyCreatedGE l

/-- CropDaily create restores the crop_stage invariant for every crop,
provided the new record's timestamp is at least as late as the existing
records of that crop. -/
theorem create_daily_crop_keeps_inv (req : CreateDailyCrop) (now : Nat)
    (db db' : DB) (nd : CropDaily)
    (hCropIds : (db.crops.map (·.crop_id)).Nodup)
    (hNfc : (db.crops.map (·.nfc_code)).Nodup)
    (hFresh : ∀ d ∈ db.dailies, d.nfc_code = req.nfc_code →
      d.record_created_date ≤ now)
    (hInvOld : ∀ c ∈ db.crops, cropStageInv db c)
    (hrun : create_daily_crop req now db = .ok (db', nd)) :
    ∀ c ∈ db'.crops, cropStageInv db' c := by
  unfold create_daily_crop at hrun
  cases h1 : scalarOneOrNone (db.crops.filter (fun c =>
      c.nfc_code == req.nfc_code && c.crop_is_active)) with
  | error e => rw [h1] at hrun; cases hrun
  | ok o =>
    rw [h1] at hrun
    simp only [bind_ok_elim] at hrun
    cases o with
    | none => cases hrun
    | some crop =>
      simp only [bind_ok_elim] at hrun
      have hcs := scalarOneOrNone_ok_some h1
      have hcrop_mem : crop ∈ db.crops ∧ crop.nfc_code = req.nfc_code := by
        have hin : crop ∈ db.crops.filter (fun c =>
            c.nfc_code == req.nfc_code && c.crop_is_active) := by
          rw [hcs]; exact List.mem_singleton.mpr rfl
        exact ⟨(List.mem_filter.mp hin).1,
          beq_iff_eq.mp ((Bool.and_eq_true _ _).mp (List.mem_filter.mp hin).2).1⟩
      have huniq : ∀ c ∈ db.crops, c.nfc_code = req.nfc_code → c = crop := by
        intro c hcm hcn
        exact eq_of_mem_nodup_keys (·.nfc_code) hNfc hcm hcrop_mem.1
          (by show c.nfc_code = crop.nfc_code; rw [hcn, hcrop_mem.2])
      cases h2 : scalarOneOrNone (db.dailies.filter (fun d =>
          d.nfc_code == req.nfc_code &&
          dateOf d.record_created_date == dateOf now &&
          d.crop_status == DailyCropStatusEnum.active)) with
      | error e => rw [h2] at hrun; cases hrun
      | ok ex =>
        rw [h2] at hrun
        simp only [bind_ok_elim] at hrun
        by_cases hex : ex.isSome = true
        · rw [if_pos hex] at hrun; cases hrun
        · rw [if_neg hex] at hrun
          simp only [bind_ok_elim, bind_pure_elim, pure_eq_ok,
            Except.ok.injEq, Prod.mk.injEq] at hrun
          obtain ⟨hdb, hnd⟩ := hrun
          have hDailies : db'.dailies = db.dailies ++
              [⟨nextId (db.dailies.map (·.daily_id)), crop.crop_id,
                req.nfc_code, req.crop_stage, req.stage_duration_day,
                DailyCropStatusEnum.active, now, none⟩] := by rw [← hdb]
          have hCrops : db'.crops =
              (if crop.crop_stage ≠ some req.crop_stage then
                db.crops.map (fun c =>
                  if c.crop_id == crop.crop_id then
                    { c with crop_stage := some req.crop_stage,
                             crop_modified_date := some now }
                  else c)
              else db.crops) := by rw [← hdb]
          have hLive : ∀ s : String, liveDailies db' s =
              liveDailies db s ++ (if s = req.nfc_code then
                [⟨nextId (db.dailies.map (·.daily_id)), crop.crop_id,
                  req.nfc_code, req.crop_stage, req.stage_duration_day,
                  DailyCropStatusEnum.active, now, none⟩] else []) := by
            intro s
            unfold liveDailies
            rw [hDailies, List.filter_append]
            congr 1
            by_cases hs : s = req.nfc_code
            · subst hs
              simp [List.filter]
            · rw [if_neg hs]
              have : (req.nfc_code == s) = false := by
                rw [beq_eq_false_iff_ne]
                exact fun hcc => hs hcc.symm
              simp [List.filter, this]
          have hKeep : ∀ cx ∈ db.crops, cx.nfc_code ≠ req.nfc_code →
              cropStageInv db' cx := by
            intro cx hcx hne
            have hLx : liveDailies db' cx.nfc_code =
                liveDailies db cx.nfc_code := by
              rw [hLive, if_neg hne, List.append_nil]
            have hold := hInvOld cx hcx
            unfold cropStageInv at hold ⊢
            rw [hLx]
            exact hold
          have hTarget : ∀ cx : CropDtl, cx.nfc_code = req.nfc_code →
              cx.crop_stage = some req.crop_stage → cropStageInv db' cx := by
            intro cx hnfc hstage
            unfold cropStageInv
            right
            refine ⟨⟨nextId (db.dailies.map (·.daily_id)), crop.crop_id,
              req.nfc_code, req.crop_stage, req.stage_duration_day,
              DailyCropStatusEnum.active, now, none⟩, ?_, ?_, ?_⟩
            · rw [hLive, hnfc, if_pos rfl]
              exact List.mem_append_right _ (List.mem_singleton.mpr rfl)
            · intro d' hd'
              rw [hLive, hnfc, if_pos rfl] at hd'
              rcases List.mem_append.mp hd' with h5 | h5
              · have h6 := List.mem_filter.mp h5
                have h7 : d'.nfc_code = req.nfc_code :=
                  beq_iff_eq.mp ((Bool.and_eq_true _ _).mp h6.2).1
                exact hFresh d' h6.1 h7
              · rw [List.mem_singleton.mp h5]
            · exact hstage
          intro c hc
          rw [hCrops] at hc
          by_cases hst : crop.crop_stage ≠ some req.crop_stage
          · rw [if_pos hst] at hc
            rcases List.mem_map.mp hc with ⟨y, hy, hye⟩
            by_cases hb : (y.crop_id == crop.crop_id) = true
            · rw [if_pos hb] at hye
              have hycrop : y = crop :=
                eq_of_mem_nodup_keys (·.crop_id) hCropIds hy hcrop_mem.1
                  (beq_iff_eq.mp hb)
              subst hycrop
              refine hTarget c ?_ ?_
              · rw [← hye]; exact hcrop_mem.2
              · rw [← hye]
            · rw [if_neg hb] at hye
              subst hye
              by_cases hnc : y.nfc_code = req.nfc_code
              · exfalso
                have hyc : y = crop := huniq y hy hnc
                rw [hyc] at hb
                simp at hb
              · exact hKeep y hy hnc
          · rw [if_neg hst] at hc
            have hstage : crop.crop_stage = some req.crop_stage := by
              by_contra hcc
              exact hst hcc
            by_cases hnc : c.nfc_code = req.nfc_code
            · have hcc : c = crop := huniq c hc hnc
              subst hcc
              exact hTarget c hnc hstage
            · exact hKeep c hc hnc

/-- CropDaily update preserves the crop_stage invariant provided the
record it updates - the globally latest CropDaily row for the nfc, chosen
with no status filter - is not a deleted row. -/
theorem update_latest_daily_crop_keeps_inv (u : User) (nfc : String)
    (upd : UpdateDailyCrop) (now : Nat) (db db' : DB) (res : CropDaily)
    (hCropIds : (db.crops.map (·.crop_id)).Nodup)
    (hNfc : (db.crops.map (·.nfc_code)).Nodup)
    (hDailyIds : (db.dailies.map (·.daily_id)).Nodup)
    (hLatestLive : ((sortDailiesDesc (db.dailies.filter (fun d =>
        d.nfc_code == nfc))).head?).all
      (fun d => !(d.crop_status == DailyCropStatusEnum.deleted)) = true)
    (hInvOld : ∀ c ∈ db.crops, cropStageInv db c)
    (hrun : update_latest_daily_crop u nfc upd now db = .ok (db', res)) :
    ∀ c ∈ db'.crops, cropStageInv db' c := by
  unfold update_latest_daily_crop at hrun
  cases h1 : scalarOneOrNone (db.crops.filter (fun c =>
      c.nfc_code == nfc && c.crop_is_active &&
      db.farms.any (fun f =>
        f.farm_id == c.farm_id && f.user_id == u.user_id))) with
  | error e => rw [h1] at hrun; cases hrun
  | ok o =>
    rw [h1] at hrun
    simp only [bind_ok_elim] at hrun
    cases o with
    | none => cases hrun
    | some crop =>
      simp only [bind_ok_elim] at hrun
      have hcs := scalarOneOrNone_ok_some h1
      have hcrop_mem : crop ∈ db.crops ∧ crop.nfc_code = nfc := by
        have hin : crop ∈ db.crops.filter (fun c =>
            c.nfc_code == nfc && c.crop_is_active &&
            db.farms.any (fun f =>
              f.farm_id == c.farm_id && f.user_id == u.user_id)) := by
          rw [hcs]; exact List.mem_singleton.mpr rfl
        refine ⟨(List.mem_filter.mp hin).1, ?_⟩
        have hp := (List.mem_filter.mp hin).2
        exact beq_iff_eq.mp
          ((Bool.and_eq_true _ _).mp ((Bool.and_eq_true _ _).mp hp).1).1
      have huniq : ∀ c ∈ db.crops, c.nfc_code = nfc → c = crop := by
        intro c hcm hcn
        exact eq_of_mem_nodup_keys (·.nfc_code) hNfc hcm hcrop_mem.1
          (by show c.nfc_code = crop.nfc_code; rw [hcn, hcrop_mem.2])
      cases hH : (sortDailiesDesc (db.dailies.filter (fun d =>
          d.nfc_code == nfc))).head? with
      | none => rw [hH] at hrun; cases hrun
      | some L =>
        rw [hH] at hrun
        simp only [bind_ok_elim, bind_pure_elim, pure_eq_ok,
          Except.ok.injEq, Prod.mk.injEq] at hrun
        obtain ⟨hdb, hres⟩ := hrun
        have hLmax := sortDailiesDesc_head_max hH
        have hLmem : L ∈ db.dailies ∧ L.nfc_code = nfc :=
          ⟨(List.mem_filter.mp hLmax.1).1,
           beq_iff_eq.mp (List.mem_filter.mp hLmax.1).2⟩
        have hLlive : L.crop_status ≠ DailyCropStatusEnum.deleted := by
          rw [hH] at hLatestLive
          simpa using hLatestLive
        have hDailies : db'.dailies = db.dailies.map (fun d =>
            if d.daily_id == L.daily_id then
              { d with
                crop_stage := upd.crop_stage.getD d.crop_stage,
                stage_duration_day :=
                  upd.stage_duration_day.getD d.stage_duration_day,
                record_updated_date := some now }
            else d) := by rw [← hdb]
        generalize hgdef : (fun d : CropDaily =>
            if d.daily_id == L.daily_id then
              { d with
                crop_stage := upd.crop_stage.getD d.crop_stage,
                stage_duration_day :=
                  upd.stage_duration_day.getD d.stage_duration_day,
                record_updated_date := some now }
            else d) = g at hDailies
        have hgcreated : ∀ x, (g x).record_created_date =
            x.record_created_date := by
          intro x
          rw [← hgdef]
          beta_reduce
          by_cases hb : (x.daily_id == L.daily_id) = true
          · rw [if_pos hb]
          · rw [if_neg hb]
        have hgnfc : ∀ x, (g x).nfc_code = x.nfc_code := by
          intro x
          rw [← hgdef]
          beta_reduce
          by_cases hb : (x.daily_id == L.daily_id) = true
          · rw [if_pos hb]
          · rw [if_neg hb]
        have hgstatus : ∀ x, (g x).crop_status = x.crop_status := by
          intro x
          rw [← hgdef]
          beta_reduce
          by_cases hb : (x.daily_id == L.daily_id) = true
          · rw [if_pos hb]
          · rw [if_neg hb]
        have hLive : ∀ s : String, liveDailies db' s =
            (liveDailies db s).map g := by
          intro s
          unfold liveDailies
          rw [hDailies]
          refine filter_map_comm_eq _ _ _ ?_
          intro x
          rw [← hgdef]
          beta_reduce
          by_cases hb : (x.daily_id == L.daily_id) = true
          · rw [if_pos hb]
          · rw [if_neg hb]
        have hgOther : ∀ x ∈ db.dailies, x.nfc_code ≠ nfc → g x = x := by
          intro x hx hne
          rw [← hgdef]
          beta_reduce
          by_cases hb : (x.daily_id == L.daily_id) = true
          · exfalso
            have hxL : x = L := eq_of_mem_nodup_keys (·.daily_id) hDailyIds
              hx hLmem.1 (beq_iff_eq.mp hb)
            rw [hxL] at hne
            exact hne hLmem.2
          · rw [if_neg hb]
        have hKeep : ∀ cx ∈ db.crops, cx.nfc_code ≠ nfc →
            cropStageInv db' cx := by
          intro cx hcx hne
          have hmapself : (liveDailies db cx.nfc_code).map g =
              liveDailies db cx.nfc_code := by
            refine map_eq_self_of_mem ?_
            intro x hx
            have hx1 := List.mem_filter.mp hx
            have hxnfc : x.nfc_code = cx.nfc_code :=
              beq_iff_eq.mp ((Bool.and_eq_true _ _).mp hx1.2).1
            refine hgOther x hx1.1 ?_
            rw [hxnfc]
            exact hne
          have hLx : liveDailies db' cx.nfc_code =
              liveDailies db cx.nfc_code := by
            rw [hLive, hmapself]
          have hold := hInvOld cx hcx
          unfold cropStageInv at hold ⊢
          rw [hLx]
          exact hold
        have hgL : (g L).crop_stage = upd.crop_stage.getD L.crop_stage ∧
            (g L).record_created_date = L.record_created_date := by
          rw [← hgdef]
          beta_reduce
          rw [if_pos (beq_iff_eq.mpr rfl)]
          exact ⟨rfl, rfl⟩
        have hLliveMem : L ∈ liveDailies db nfc := by
          refine List.mem_filter.mpr ⟨hLmem.1, ?_⟩
          rw [Bool.and_eq_true]
          refine ⟨beq_iff_eq.mpr hLmem.2, ?_⟩
          simpa using hLlive
        have hgLmem : g L ∈ liveDailies db' nfc := by
          rw [hLive]
          exact List.mem_map_of_mem g hLliveMem
        have hgLmax : ∀ d' ∈ liveDailies db' nfc,
            d'.record_created_date ≤ (g L).record_created_date := by
          intro d' hd'
          rw [hLive] at hd'
          rcases List.mem_map.mp hd' with ⟨x, hx, hxe⟩
          have hxf : x ∈ db.dailies.filter (fun d =>
              d.nfc_code == nfc) := by
            have hx1 := List.mem_filter.mp hx
            refine List.mem_filter.mpr ⟨hx1.1, ?_⟩
            exact ((Bool.and_eq_true _ _).mp hx1.2).1
          rw [← hxe, hgcreated, hgL.2]
          exact hLmax.2 x hxf
        -- the updated latest row is the invariant witness for the crop
        have hTarget : ∀ cx : CropDtl, cx.nfc_code = nfc →
            cx.crop_stage = some ((g L).crop_stage) →
            cropStageInv db' cx := by
          intro cx hnfc2 hstage2
          unfold cropStageInv
          right
          refine ⟨g L, ?_, ?_, hstage2⟩
          · rw [hnfc2]; exact hgLmem
          · intro d' hd'
            rw [hnfc2] at hd'
            exact hgLmax d' hd'
        intro c hc
        cases hupds : upd.crop_stage with
        | some s =>
          rw [hupds] at hdb
          have hCrops : db'.crops = (if crop.crop_stage ≠ some s then
              db.crops.map (fun c =>
                if c.crop_id == crop.crop_id then
                  { c with crop_stage := some s,
                           crop_modified_date := some now }
                else c)
              else db.crops) := by rw [← hdb]
          have hgLs : (g L).crop_stage = s := by
            rw [hgL.1, hupds]
            rfl
          rw [hCrops] at hc
          by_cases hst : crop.crop_stage ≠ some s
          · rw [if_pos hst] at hc
            rcases List.mem_map.mp hc with ⟨y, hy, hye⟩
            by_cases hb : (y.crop_id == crop.crop_id) = true
            · have hycrop : y = crop :=
                eq_of_mem_nodup_keys (·.crop_id) hCropIds hy hcrop_mem.1
                  (beq_iff_eq.mp hb)
              subst hycrop
              rw [if_pos hb] at hye
              refine hTarget c ?_ ?_
              · rw [← hye]; exact hcrop_mem.2
              · rw [← hye, hgLs]
            · rw [if_neg hb] at hye
              subst hye
              by_cases hnc : y.nfc_code = nfc
              · exfalso
                have hyc : y = crop := huniq y hy hnc
                rw [hyc] at hb
                simp at hb
              · exact hKeep y hy hnc
          · rw [if_neg hst] at hc
            have hstage : crop.crop_stage = some s := by
              by_contra hcc
              exact hst hcc
            by_cases hnc : c.nfc_code = nfc
            · have hcc : c = crop := huniq c hc hnc
              subst hcc
              refine hTarget c hnc ?_
              rw [hstage, hgLs]
            · exact hKeep c hc hnc
        | none =>
          rw [hupds] at hdb
          have hCrops : db'.crops = db.crops := by rw [← hdb]
          rw [hCrops] at hc
          by_cases hnc : c.nfc_code = nfc
          · have hcc : c = crop := huniq c hc hnc
            have hold := hInvOld c hc
            unfold cropStageInv at hold
            rcases hold with ⟨hle, _⟩ | ⟨w, hw, hwmax, hstage⟩
            · exfalso
              have h6 : L ∈ liveDailies db nfc := hLliveMem
              rw [hcc, hcrop_mem.2] at hle
              rw [hle] at h6
              cases h6
            · have hgw_stage : (g w).crop_stage = w.crop_stage := by
                rw [← hgdef]
                beta_reduce
                by_cases hb : (w.daily_id == L.daily_id) = true
                · rw [if_pos hb]
                  rw [hupds]
                  rfl
                · rw [if_neg hb]
              unfold cropStageInv
              right
              refine ⟨g w, ?_, ?_, ?_⟩
              · rw [hLive]
                exact List.mem_map_of_mem g hw
              · intro d' hd'
                rw [hLive] at hd'
                rcases List.mem_map.mp hd' with ⟨x, hx, hxe⟩
                rw [← hxe, hgcreated, hgcreated]
                exact hwmax x hx
              · rw [hgcreated] at *
                rw [hgw_stage]
                exact hstage
          · exact hKeep c hc hnc

/-- CropDaily soft delete preserves the crop_stage invariant: the
stage-matched branch recomputes the stage from the surviving records, and
the other branch leaves a still-valid witness untouched. -/
theorem soft_delete_today_keeps_inv (u : User) (nfc : String) (now : Nat)
    (db db' : DB)
    (hCropIds : (db.crops.map (·.crop_id)).Nodup)
    (hNfc : (db.crops.map (·.nfc_code)).Nodup)
    (hDailyIds : (db.dailies.map (·.daily_id)).Nodup)
    (hInvOld : ∀ c ∈ db.crops, cropStageInv db c)
    (hrun : soft_delete_today_daily_crop_by_nfc u nfc now db = .ok db') :
    ∀ c ∈ db'.crops, cropStageInv db' c := by
  unfold soft_delete_today_daily_crop_by_nfc at hrun
  cases h1 : scalarOneOrNone (db.crops.filter (fun c =>
      c.nfc_code == nfc && c.crop_is_active)) with
  | error e => rw [h1] at hrun; cases hrun
  | ok o =>
    rw [h1] at hrun
    simp only [bind_ok_elim] at hrun
    cases o with
    | none => cases hrun
    | some crop =>
      simp only [bind_ok_elim] at hrun
      have hcs := scalarOneOrNone_ok_some h1
      have hcrop_mem : crop ∈ db.crops ∧ crop.nfc_code = nfc := by
        have hin : crop ∈ db.crops.filter (fun c =>
            c.nfc_code == nfc && c.crop_is_active) := by
          rw [hcs]; exact List.mem_singleton.mpr rfl
        refine ⟨(List.mem_filter.mp hin).1, ?_⟩
        exact beq_iff_eq.mp
          ((Bool.and_eq_true _ _).mp (List.mem_filter.mp hin).2).1
      have huniq : ∀ c ∈ db.crops, c.nfc_code = nfc → c = crop := by
        intro c hcm hcn
        exact eq_of_mem_nodup_keys (·.nfc_code) hNfc hcm hcrop_mem.1
          (by show c.nfc_code = crop.nfc_code; rw [hcn, hcrop_mem.2])
      cases h2 : scalarOneOrNone (db.farms.filter (fun f =>
          f.farm_id == crop.farm_id && f.user_id == u.user_id)) with
      | error e => rw [h2] at hrun; cases hrun
      | ok o2 =>
        rw [h2] at hrun
        simp only [bind_ok_elim] at hrun
        cases o2 with
        | none => cases hrun
        | some farm =>
          simp only [bind_ok_elim] at hrun
          cases h3 : scalarOneOrNone (db.dailies.filter (fun d =>
              d.nfc_code == nfc &&
              dateOf d.record_created_date == dateOf now &&
              d.crop_status ≠ DailyCropStatusEnum.deleted)) with
          | error e => rw [h3] at hrun; cases hrun
          | ok o3 =>
            rw [h3] at hrun
            simp only [bind_ok_elim] at hrun
            cases o3 with
            | none => cases hrun
            | some T =>
              simp only [bind_ok_elim, pure_eq_ok, Except.ok.injEq] at hrun
              have hts := scalarOneOrNone_ok_some h3
              have hT_mem : T ∈ db.dailies ∧ T.nfc_code = nfc ∧
                  T.crop_status ≠ DailyCropStatusEnum.deleted := by
                have hin : T ∈ db.dailies.filter (fun d =>
                    d.nfc_code == nfc &&
                    dateOf d.record_created_date == dateOf now &&
                    d.crop_status ≠ DailyCropStatusEnum.deleted) := by
                  rw [hts]; exact List.mem_singleton.mpr rfl
                have hp := (List.mem_filter.mp hin).2
                refine ⟨(List.mem_filter.mp hin).1, ?_, ?_⟩
                · exact beq_iff_eq.mp
                    ((Bool.and_eq_true _ _).mp
                      ((Bool.and_eq_true _ _).mp hp).1).1
                · exact of_decide_eq_true ((Bool.and_eq_true _ _).mp hp).2
              have hTuniq : ∀ x ∈ db.dailies, x.daily_id = T.daily_id →
                  x = T := fun x hx hxd =>
                eq_of_mem_nodup_keys (·.daily_id) hDailyIds hx hT_mem.1 hxd
              have hDailies : db'.dailies = db.dailies.map (fun d =>
                  if d.daily_id == T.daily_id then
                    { d with crop_status := DailyCropStatusEnum.deleted,
                             record_updated_date := some now }
                  else d) := by rw [← hrun]
              have hCrops : db'.crops =
                  (if (crop.crop_stage == some T.crop_stage) = true then
                    db.crops.map (fun c =>
                      if c.crop_id == crop.crop_id then
                        { c with
                          crop_stage :=
                            (((sortDailiesDesc ((db.dailies.map (fun d =>
                              if d.daily_id == T.daily_id then
                                { d with
                                  crop_status := DailyCropStatusEnum.deleted,
                                  record_updated_date := some now }
                              else d)).filter (fun d =>
                                d.nfc_code == nfc &&
                                d.crop_status ≠
                                  DailyCropStatusEnum.deleted))).head?).map
                              (fun x => x.crop_stage)),
                          crop_modified_date := some now }
                      else c)
                  else db.crops) := by rw [← hrun]
              have hLive : ∀ s : String, liveDailies db' s =
                  (liveDailies db s).filter (fun x =>
                    !(x.daily_id == T.daily_id)) := by
                intro s
                unfold liveDailies
                rw [hDailies]
                exact filter_map_update_eq _ _ _ _ (by intro x hq; simp)
              have hKeep : ∀ cx ∈ db.crops, cx.nfc_code ≠ nfc →
                  cropStageInv db' cx := by
                intro cx hcx hne
                have hfe : (liveDailies db cx.nfc_code).filter (fun x =>
                    !(x.daily_id == T.daily_id)) =
                    liveDailies db cx.nfc_code := by
                  rw [List.filter_eq_self]
                  intro x hx
                  have hx1 := List.mem_filter.mp hx
                  have hxnfc : x.nfc_code = cx.nfc_code :=
                    beq_iff_eq.mp ((Bool.and_eq_true _ _).mp hx1.2).1
                  by_cases hbid : (x.daily_id == T.daily_id) = true
                  · exfalso
                    have hxT : x = T := hTuniq x hx1.1 (beq_iff_eq.mp hbid)
                    rw [hxT] at hxnfc
                    exact hne (by rw [← hxnfc, hT_mem.2.1])
                  · simp [hbid]
                have hLx : liveDailies db' cx.nfc_code =
                    liveDailies db cx.nfc_code := by rw [hLive, hfe]
                have hold := hInvOld cx hcx
                unfold cropStageInv at hold ⊢
                rw [hLx]
                exact hold
              intro c hc
              rw [hCrops] at hc
              by_cases hst : (crop.crop_stage == some T.crop_stage) = true
              · rw [if_pos hst] at hc
                rcases List.mem_map.mp hc with ⟨y, hy, hye⟩
                by_cases hb : (y.crop_id == crop.crop_id) = true
                · have hycrop : y = crop :=
                    eq_of_mem_nodup_keys (·.crop_id) hCropIds hy
                      hcrop_mem.1 (beq_iff_eq.mp hb)
                  subst hycrop
                  rw [if_pos hb] at hye
                  have hcnfc : c.nfc_code = nfc := by
                    rw [← hye]; exact hcrop_mem.2
                  have hstage_eq : c.crop_stage =
                      ((sortDailiesDesc (liveDailies db' nfc)).head?).map
                        (fun x => x.crop_stage) := by
                    rw [← hye]
                    unfold liveDailies
                    rw [hDailies]
                  cases hH : (sortDailiesDesc (liveDailies db' nfc)).head? with
                  | none =>
                    have hnil : liveDailies db' nfc = [] :=
                      sortDailiesDesc_eq_nil_iff.mp
                        (List.head?_eq_none_iff.mp hH)
                    unfold cropStageInv
                    left
                    constructor
                    · rw [hcnfc, hnil]
                    · rw [hstage_eq, hH]
                      rfl
                  | some M =>
                    have hfm := sortDailiesDesc_head_max hH
                    unfold cropStageInv
                    right
                    refine ⟨M, ?_, ?_, ?_⟩
                    · rw [hcnfc]; exact hfm.1
                    · intro d' hd'
                      rw [hcnfc] at hd'
                      exact hfm.2 d' hd'
                    · rw [hstage_eq, hH]
                      rfl
                · rw [if_neg hb] at hye
                  subst hye
                  by_cases hnc : y.nfc_code = nfc
                  · exfalso
                    have hyc : y = crop := huniq y hy hnc
                    rw [hyc] at hb
                    simp at hb
                  · exact hKeep y hy hnc
              · rw [if_neg hst] at hc
                by_cases hnc : c.nfc_code = nfc
                · have hcc : c = crop := huniq c hc hnc
                  have hold := hInvOld c hc
                  unfold cropStageInv at hold
                  rcases hold with ⟨hle, _⟩ | ⟨w, hw, hwmax, hstage⟩
                  · exfalso
                    have hTlive : T ∈ liveDailies db nfc := by
                      refine List.mem_filter.mpr ⟨hT_mem.1, ?_⟩
                      rw [Bool.and_eq_true]
                      exact ⟨beq_iff_eq.mpr hT_mem.2.1,
                        decide_eq_true hT_mem.2.2⟩
                    rw [hnc] at hle
                    rw [hle] at hTlive
                    cases hTlive
                  · have hwd : w ∈ db.dailies := (List.mem_filter.mp hw).1
                    have hwne : ¬ (w.daily_id == T.daily_id) = true := by
                      intro hbid
                      have hwTeq : w = T := hTuniq w hwd (beq_iff_eq.mp hbid)
                      apply hst
                      rw [← hwTeq, ← hcc]
                      exact beq_iff_eq.mpr hstage
                    unfold cropStageInv
                    right
                    refine ⟨w, ?_, ?_, hstage⟩
                    · rw [hLive]
                      exact List.mem_filter.mpr ⟨hw, by simpa using hwne⟩
                    · intro d' hd'
                      rw [hLive] at hd'
                      exact hwmax d' (List.mem_filter.mp hd').1
                · exact hKeep c hc hnc

/-- C2 amended: the crop_stage invariant survives a committed CropDaily
create when the new record is dated no earlier than the crop's existing
records, survives an update when the route's chosen record - the latest
CropDaily for the nfc with NO status filter - is not itself deleted, and
survives a soft delete unconditionally (given pairwise-distinct crop ids,
crop nfc codes and daily ids). -/
theorem C2_amended :
    (∀ (req : CreateDailyCrop) (now : Nat) (db db' : DB) (nd : CropDaily),
      (db.crops.map (·.crop_id)).Nodup →
      (db.crops.map (·.nfc_code)).Nodup →
      (∀ d ∈ db.dailies, d.nfc_code = req.nfc_code →
        d.record_created_date ≤ now) →
      (∀ c ∈ db.crops, cropStageInv db c) →
      create_daily_crop req now db = .ok (db', nd) →
      ∀ c ∈ db'.crops, cropStageInv db' c) ∧
    (∀ (u : User) (nfc : String) (upd : UpdateDailyCrop) (now : Nat)
       (db db' : DB) (res : CropDaily),
      (db.crops.map (·.crop_id)).Nodup →
      (db.crops.map (·.nfc_code)).Nodup →
      (db.dailies.map (·.daily_id)).Nodup →
      ((sortDailiesDesc (db.dailies.filter (fun d =>
          d.nfc_code == nfc))).head?).all
        (fun d => !(d.crop_status == DailyCropStatusEnum.deleted)) = true →
      (∀ c ∈ db.crops, cropStageInv db c) →
      update_latest_daily_crop u nfc upd now db = .ok (db', res) →
      ∀ c ∈ db'.crops, cropStageInv db' c) ∧
    (∀ (u : User) (nfc : String) (now : Nat) (db db' : DB),
      (db.crops.map (·.crop_id)).Nodup →
      (db.crops.map (·.nfc_code)).Nodup →
      (db.dailies.map (·.daily_id)).Nodup →
      (∀ c ∈ db.crops, cropStageInv db c) →
      soft_delete_today_daily_crop_by_nfc u nfc now db = .ok db' →
      ∀ c ∈ db'.crops, cropStageInv db' c) :=
  ⟨fun req now db db' nd h1 h2 h3 h4 h5 =>
      create_daily_crop_keeps_inv req now db db' nd h1 h2 h3 h4 h5,
   fun u nfc upd now db db' res h1 h2 h3 h4 h5 h6 =>
      update_latest_daily_crop_keeps_inv u nfc upd now db db' res
        h1 h2 h3 h4 h5 h6,
   fun u nfc now db db' h1 h2 h3 h4 h5 =>
      soft_delete_today_keeps_inv u nfc now db db' h1 h2 h3 h4 h5⟩

def c2d1 : CropDaily :=
  ⟨1, 1, "A", CropGrowingStageEnum.growing, 1,
   DailyCropStatusEnum.active, 10, none⟩

def c2d2 : CropDaily :=
  ⟨2, 1, "A", CropGrowingStageEnum.fruiting, 1,
   DailyCropStatusEnum.deleted, 20, none⟩

def c2db : DB :=
  { baseDB with
    crops := [{ sampleCropA with
      crop_stage := some CropGrowingStageEnum.growing }],
    dailies := [c2d1, c2d2] }

def c2upd : UpdateDailyCrop :=
  ⟨some CropGrowingStageEnum.flowering, none⟩

def c2badDB : DB :=
  match update_latest_daily_crop sampleUser1 "A" c2upd 99 c2db with
  | .ok p => p.1
  | .error _ => c2db

/-- C2 counterexample: the update route picks the latest CropDaily with no
status filter.  In a state satisfying the invariant (latest LIVE record is
the growing-stage one; a deleted record is newer), a committed update
writes the submitted stage into the deleted record and into the crop, so
the crop's stage no longer matches its latest non-deleted record. -/
theorem C2_counterexample :
    (∀ c ∈ c2db.crops, cropStageInv c2db c) ∧
    isOkE (update_latest_daily_crop sampleUser1 "A" c2upd 99 c2db) = true ∧
    ¬ (∀ c ∈ c2badDB.crops, cropStageInv c2badDB c) := by
  decide

def c2wdb : DB :=
  { baseDB with
    crops := [{ sampleCropA with
      crop_stage := some CropGrowingStageEnum.growing }],
    dailies := [c2d1] }

def c2creReq : CreateDailyCrop :=
  ⟨"A", CropGrowingStageEnum.growing, 2⟩

def c2creRes : DB × CropDaily :=
  match create_daily_crop c2creReq (2 * secsPerDay) c2wdb with
  | .ok p => p
  | .error _ => (c2wdb, c2d1)

def c2updRes : DB × CropDaily :=
  match update_latest_daily_crop sampleUser1 "A" c2upd 99 c2wdb with
  | .ok p => p
  | .error _ => (c2wdb, c2d1)

def c2delRes : DB :=
  match soft_delete_today_daily_crop_by_nfc sampleUser1 "A" 50 c2wdb with
  | .ok d => d
  | .error _ => c2wdb

/-- C2 witness: a concrete committed create, update and soft delete against
sample states satisfying the amended claim's hypotheses; each leaves every
crop satisfying the crop_stage invariant. -/
theorem C2_amended_witness :
    (∀ c ∈ c2creRes.1.crops, cropStageInv c2creRes.1 c) ∧
    (∀ c ∈ c2updRes.1.crops, cropStageInv c2updRes.1 c) ∧
    (∀ c ∈ c2delRes.crops, cropStageInv c2delRes c) :=
  ⟨C2_amended.1 c2creReq (2 * secsPerDay) c2wdb c2creRes.1 c2creRes.2
     (by decide) (by decide) (by decide) (by decide) (by decide),
   C2_amended.2.1 sampleUser1 "A" c2upd 99 c2wdb c2updRes.1 c2updRes.2
     (by decide) (by decide) (by decide) (by decide) (by decide) (by decide),
   C2_amended.2.2 sampleUser1 "A" 50 c2wdb c2delRes
     (by decide) (by decide) (by decide) (by decide) (by decide)⟩

end Akaris
